import Mathlib

/-!
Verification development for the gltf-optimizer library (`lib/optimize.js`).

The development shallowly embeds the two engineering cores of the library:

* `validateGltfModel` — the byte-level format validator for the JSON
  container (`.gltf`) and the binary container (`.glb`);
* `optimizeModel` — the staged transformation pipeline (mandatory
  `gltf-transform optimize` stage, optional `resize` stage, `webp` stage,
  backup management and final replacement of the original asset).

File contents are byte lists (`Bytes = List Nat`), the file system is a
partial map from path strings to contents, and every filesystem mutation
performed by the pipeline is additionally recorded in an event trace so
that ordering properties ("no removal happens before the stage is
invoked") can be stated.  The external pieces of the JavaScript runtime —
`JSON.parse` together with the `asset.version` field reads, and the
`gltf-transform` child process — are abstracted as explicit parameters
(`Rt` and `Port`), mirroring how the source consumes them as opaque
collaborators.
-/

/-- File contents: a list of byte values. -/
abbrev Bytes := List Nat

/-- The file system: a partial map from path strings to file contents.
`none` models a non-existing path (`fs.existsSync` returns `false`). -/
abbrev FS := String → Option Bytes

/-! ### String and path helpers

`lib/optimize.js` manipulates paths with `path.dirname`, `path.extname`,
`path.basename`, `path.join`, `String.prototype.endsWith` and
`String.prototype.replace` (first-occurrence replacement).  These are
modelled below for ordinary POSIX-style path strings. -/

/-- JavaScript `String.prototype.endsWith`. -/
def strEndsWith (p sfx : String) : Bool :=
  sfx.data.isSuffixOf p.data

/-- Split a character list at its last occurrence of `sep`:
`some (before, after)` when `sep` occurs, `none` otherwise. -/
def splitAtLast (sep : Char) : List Char → Option (List Char × List Char)
  | [] => none
  | c :: cs =>
    match splitAtLast sep cs with
    | some (b, a) => some (c :: b, a)
    | none => if c = sep then some ([], cs) else none

/-- `path.dirname` for ordinary POSIX paths. -/
def jsDirname (p : String) : String :=
  match splitAtLast '/' p.data with
  | none => "."
  | some (b, _) => if b = [] then "/" else ⟨b⟩

/-- The part of a path after its last slash (the raw base name). -/
def jsBasenameRaw (p : String) : List Char :=
  match splitAtLast '/' p.data with
  | none => p.data
  | some (_, a) => a

/-- `path.extname` for ordinary file names: the substring starting at the
last dot of the base name, empty when the base name has no dot or starts
with its only dot. -/
def jsExtname (p : String) : String :=
  match splitAtLast '.' (jsBasenameRaw p) with
  | none => ""
  | some (b, a) => if b = [] then "" else ⟨'.' :: a⟩

/-- `path.basename(p, ext)`: the base name with the suffix `ext` stripped
when it is a proper suffix. -/
def jsBasename (p ext : String) : String :=
  let b := jsBasenameRaw p
  if ext.data ≠ [] ∧ ext.data ≠ b ∧ ext.data.isSuffixOf b
  then ⟨b.take (b.length - ext.data.length)⟩ else ⟨b⟩

/-- `path.join` for ordinary two-component joins. -/
def jsJoin (d u : String) : String :=
  if d = "." then u
  else if strEndsWith d "/" then d ++ u
  else d ++ "/" ++ u

/-- First-occurrence substring replacement, the behaviour of the
JavaScript `String.prototype.replace` with a string pattern. -/
def replaceFirstAux (pat rep : List Char) : List Char → List Char
  | [] => []
  | c :: cs =>
    if pat.isPrefixOf (c :: cs) then rep ++ (c :: cs).drop pat.length
    else c :: replaceFirstAux pat rep cs

/-- `s.replace(pat, rep)` on strings (first occurrence only). -/
def replaceFirstS (s pat rep : String) : String :=
  if pat.data = [] then ⟨rep.data ++ s.data⟩
  else ⟨replaceFirstAux pat.data rep.data s.data⟩

/-! ### Byte-level primitives of the validator -/

/-- `Buffer.prototype.readUInt32LE`: little-endian 32-bit read.  In every
reached state the source guards the read by a bounds check, so the `getD`
default is never consulted on real inputs. -/
def u32le (c : Bytes) (i : Nat) : Nat :=
  c.getD i 0 + 256 * c.getD (i + 1) 0 + 65536 * c.getD (i + 2) 0
    + 16777216 * c.getD (i + 3) 0

/-- `buffer.toString('utf8', a, b)` viewed at the byte level: the slice
`[a, b)` with both ends clamped to the buffer length, as Node clamps. -/
def byteSlice (c : Bytes) (a b : Nat) : Bytes :=
  (c.take b).drop a

/-- The ASCII bytes of the `glTF` magic. -/
def glbMagic : Bytes := [103, 108, 84, 70]

/-- The ASCII bytes of the `JSON` chunk tag. -/
def jsonTag : Bytes := [74, 83, 79, 78]

/-- The bytes of the `BIN\0` chunk tag. -/
def binTag : Bytes := [66, 73, 78, 0]

/-! ### The abstracted JavaScript runtime

`JSON.parse` plus the subsequent field reads are external runtime
facilities, not code of this repository; they are abstracted as functions
from the raw bytes to the verdict the source branches on. -/

/-- Outcome of `JSON.parse` + `asset.version` checks on a GLB `JSON`
chunk payload, exactly the four ways the source branches on it. -/
inductive JsonVerdict
  | ok
  | parseErr (m : String)
  | noVersion
  | badVersion (v : String)

/-- One `buffers` array entry of a parsed `.gltf` document, as far as the
source reads it: only its `uri` property.  A missing or falsy (`""`) URI
is `none` / `some ""`. -/
structure GltfBuffer where
  uri : Option String

/-- A parsed `.gltf` document, as far as the source reads it:
`asset.version` (with `none` covering a missing/falsy `asset` or
`asset.version`) and the `buffers` array. -/
structure GltfDoc where
  assetVersion : Option String
  buffers : List GltfBuffer

/-- Outcome of `JSON.parse` on a whole `.gltf` file. -/
inductive GltfDecode
  | parseErr (m : String)
  | ok (g : GltfDoc)

/-- The ambient JavaScript runtime consumed by the validator: `jc`
abstracts parsing a GLB `JSON`-chunk payload, `dec` abstracts parsing a
`.gltf` file's content. -/
structure Rt where
  jc : Bytes → JsonVerdict
  dec : Bytes → GltfDecode

/-! ### The format validator -/

/-- `ValidationOutcome`: the `{ valid, error }` record returned by
`validateGltfModel`. -/
inductive VOut
  | valid
  | invalid (reason : String)
deriving DecidableEq

/-- The GLB chunk scan (the `while (offset < content.length)` loop of
`validateGltfModel`).  Each iteration reads an 8-byte chunk header
(little-endian length, 4-byte tag), validates a `JSON` chunk's payload
through the runtime's `jc`, and advances the cursor by `8 + length`.
The source also tracks `hasBINChunk` but never uses it for the verdict,
so it is not carried here.  The final `.valid` stands for falling through
to the `return { valid: true }` at the end of the function. -/
def scanChunks (jc : Bytes → JsonVerdict) (c : Bytes) (offset : Nat)
    (hasJSON : Bool) : VOut :=
  if h : offset < c.length then
    if offset + 8 > c.length then .invalid "Chunk GLB incomplet"
    else
      let chunkLength := u32le c offset
      let chunkType := byteSlice c (offset + 4) (offset + 8)
      if chunkType = jsonTag then
        match jc (byteSlice c (offset + 8) (offset + 8 + chunkLength)) with
        | .ok => scanChunks jc c (offset + 8 + chunkLength) true
        | .parseErr m => .invalid ("JSON GLB invalide: " ++ m)
        | .noVersion => .invalid "Chunk JSON GLB invalide (asset.version manquant)"
        | .badVersion v => .invalid ("Version GLTF dans GLB non supportée: " ++ v)
      else scanChunks jc c (offset + 8 + chunkLength) hasJSON
  else if hasJSON then .valid else .invalid "GLB sans chunk JSON"
termination_by c.length - offset
decreasing_by
  · omega
  · omega

/-- Fuel-bounded variant of the chunk scan, used to state that the scan
of the source terminates on every finite buffer: `none` means the fuel
ran out before the loop did. -/
def scanChunksFuel (jc : Bytes → JsonVerdict) (c : Bytes) :
    Nat → Nat → Bool → Option VOut
  | 0, _, _ => none
  | fuel + 1, offset, hasJSON =>
    if offset < c.length then
      if offset + 8 > c.length then some (.invalid "Chunk GLB incomplet")
      else
        let chunkLength := u32le c offset
        let chunkType := byteSlice c (offset + 4) (offset + 8)
        if chunkType = jsonTag then
          match jc (byteSlice c (offset + 8) (offset + 8 + chunkLength)) with
          | .ok => scanChunksFuel jc c fuel (offset + 8 + chunkLength) true
          | .parseErr m => some (.invalid ("JSON GLB invalide: " ++ m))
          | .noVersion =>
            some (.invalid "Chunk JSON GLB invalide (asset.version manquant)")
          | .badVersion v =>
            some (.invalid ("Version GLTF dans GLB non supportée: " ++ v))
        else scanChunksFuel jc c fuel (offset + 8 + chunkLength) hasJSON
    else some (if hasJSON then .valid else .invalid "GLB sans chunk JSON")

/-- `validateGltfModel(filePath)` over an explicit file system and
runtime.  The structure mirrors the source line by line: existence and
non-emptiness first, then the `.gltf` branch (JSON parse, `asset.version`,
first `buffers` entry's URI resolved against the file's directory), then
the `.glb` branch (header checks and chunk scan), then `{ valid: true }`.
The `.gltf` branch is encoded as an `Option VOut` so that passing it
falls through to the remaining checks exactly as in the source. -/
def validateGltfModel (rt : Rt) (fsys : FS) (filePath : String) : VOut :=
  match fsys filePath with
  | none => .invalid "Fichier introuvable"
  | some content =>
    if content.length = 0 then .invalid "Fichier vide"
    else
      let gltfCheck : Option VOut :=
        if strEndsWith filePath ".gltf" then
          match rt.dec content with
          | .parseErr m => some (.invalid ("JSON invalide: " ++ m))
          | .ok g =>
            match g.assetVersion with
            | none => some (.invalid "Structure GLTF invalide (asset.version manquant)")
            | some v =>
              if v = "" then
                some (.invalid "Structure GLTF invalide (asset.version manquant)")
              else if v ≠ "2.0" then
                some (.invalid ("Version GLTF non supportée: " ++ v))
              else
                match g.buffers with
                | [] => none
                | b :: _ =>
                  match b.uri with
                  | none => none
                  | some u =>
                    if u = "" then none
                    else if (fsys (jsJoin (jsDirname filePath) u)).isSome then none
                    else some (.invalid ("Fichier binaire manquant: " ++ u))
        else none
      match gltfCheck with
      | some r => r
      | none =>
        if strEndsWith filePath ".glb" then
          if content.length < 12 then .invalid "Fichier GLB trop petit"
          else if byteSlice content 0 4 ≠ glbMagic then
            .invalid "Magic number GLB invalide"
          else if u32le content 4 ≠ 2 then
            .invalid ("Version GLB non supportée: " ++ toString (u32le content 4))
          else if u32le content 8 ≠ content.length then
            .invalid ("Longueur GLB déclarée incorrecte: "
              ++ toString (u32le content 8) ++ " vs " ++ toString content.length)
          else scanChunks rt.jc content 12 false
        else .valid

/-! ### The staged transformation pipeline

`optimizeModel` is modelled as a function over an explicit state: the file
system plus a trace of every filesystem mutation and external-tool
invocation, in the order the source performs them.  The `gltf-transform`
child process (the Transform Port) is an explicit parameter. -/

/-- Module-level configuration default (line 2 of the source). -/
def COMPRESS_DRACO : Bool := true

/-- Module-level configuration default (line 3 of the source). -/
def RESIZE_TEXTURES : Bool := true

/-- Module-level configuration default (line 4 of the source). -/
def MAX_TEXTURE_SIZE : Nat := 1024

/-- The caller-supplied `options` object of `optimizeModel`: each property
may be present or omitted (`none`), exactly what the destructuring with
defaults distinguishes. -/
structure Opts where
  compressDraco : Option Bool
  resizeTextures : Option Bool
  maxTextureSize : Option Nat
  backupOriginal : Option Bool

/-- The fully resolved stage configuration the pipeline actually runs
with, after the destructuring-with-defaults of lines 324–329. -/
structure Config where
  compressDraco : Bool
  resizeTextures : Bool
  maxTextureSize : Nat
  backupOriginal : Bool
deriving DecidableEq

/-- The destructuring `const { compressDraco = COMPRESS_DRACO, ... } =
options` of the source: omitted properties fall back to the module-level
constants (and to the literal `true` for `backupOriginal`). -/
def resolveOpts (o : Opts) : Config :=
  ⟨o.compressDraco.getD COMPRESS_DRACO, o.resizeTextures.getD RESIZE_TEXTURES,
   o.maxTextureSize.getD MAX_TEXTURE_SIZE, o.backupOriginal.getD true⟩

/-- Stage-specific parameters carried by a `gltf-transform` invocation:
`optimize` takes the Draco flag, `resize` the pixel bound, `webp` none. -/
inductive StageParams
  | general (draco : Bool)
  | resize (maxSize : Nat)
  | webp
deriving DecidableEq

/-- One observable event of a pipeline run: an external-tool invocation
or a filesystem mutation, recorded in source order. -/
inductive Ev
  | invoke (stage : Nat) (inp outp : String) (ps : StageParams)
  | unlink (p : String)
  | rename (src dst : String)
  | copy (src dst : String)
deriving DecidableEq

/-- Pipeline state: the file system and the event trace so far. -/
structure St where
  fsys : FS
  trace : List Ev

/-- Point update of the file-system map. -/
def fsUpd (f : FS) (p : String) (v : Option Bytes) : FS :=
  fun q => if q = p then v else f q

/-- `fs.existsSync`. -/
def stExists (s : St) (p : String) : Bool :=
  (s.fsys p).isSome

/-- `fs.unlinkSync`: removes the file, throwing (`Except.error`, with the
state at throw time) when it does not exist. -/
def stUnlink (s : St) (p : String) : Except St St :=
  match s.fsys p with
  | none => .error s
  | some _ => .ok ⟨fsUpd s.fsys p none, s.trace ++ [Ev.unlink p]⟩

/-- `fs.renameSync`: moves `src` to `dst`, throwing when `src` is
missing. -/
def stRename (s : St) (src dst : String) : Except St St :=
  match s.fsys src with
  | none => .error s
  | some b =>
    .ok ⟨fsUpd (fsUpd s.fsys src none) dst (some b), s.trace ++ [Ev.rename src dst]⟩

/-- `fs.copyFileSync`: copies `src` to `dst`, throwing when `src` is
missing. -/
def stCopy (s : St) (src dst : String) : Except St St :=
  match s.fsys src with
  | none => .error s
  | some b => .ok ⟨fsUpd s.fsys dst (some b), s.trace ++ [Ev.copy src dst]⟩

/-- Result of one Transform Port invocation: success with the bytes of a
fully formed output file, or failure optionally leaving a deletable
partial file at the output path (§6 of the port's contract). -/
inductive PortResult
  | ok (out : Bytes)
  | fail (wrote : Option Bytes)
deriving DecidableEq

/-- The Transform Port: given the stage index (1 = `optimize`,
2 = `resize`, 3 = `webp`) and the input file's bytes, what the external
`gltf-transform` process does. -/
abbrev Port := Nat → Bytes → PortResult

/-- One `execSync('npx gltf-transform ...')` call: records the invocation
event, throws when the input file is missing, and otherwise writes the
port's output (full output on success, the partial file if the port left
one on failure) at the output path.  Failure is a thrown error, as
`execSync` throws on a non-zero exit. -/
def invokePort (port : Port) (s : St) (stage : Nat) (inp outp : String)
    (ps : StageParams) : Except St St :=
  let s0 : St := ⟨s.fsys, s.trace ++ [Ev.invoke stage inp outp ps]⟩
  match s0.fsys inp with
  | none => .error s0
  | some b =>
    match port stage b with
    | .ok o => .ok ⟨fsUpd s0.fsys outp (some o), s0.trace⟩
    | .fail none => .error s0
    | .fail (some w) => .error ⟨fsUpd s0.fsys outp (some w), s0.trace⟩

/-- The `if (fs.existsSync(p)) fs.unlinkSync(p)` cleanup pattern used by
the outer catch (line 431) and by both optional-stage catches. -/
def removeIfExists (s : St) (p : String) : St :=
  if stExists s p then ⟨fsUpd s.fsys p none, s.trace ++ [Ev.unlink p]⟩ else s

/-- One optional stage (the shared shape of steps 2 and 3 of the source):
invoke the tool toward the temp path, then `unlinkSync(currentPath)` and
`renameSync(tempPath, currentPath)`; on any throw, remove the temp file
if present and report the stage as not applied. -/
def stageTryRun (port : Port) (stage : Nat) (ps : StageParams) (s : St)
    (currentPath tempPath : String) : St × Bool :=
  match invokePort port s stage currentPath tempPath ps with
  | .error se => (removeIfExists se tempPath, false)
  | .ok s1 =>
    match stUnlink s1 currentPath with
    | .error se => (removeIfExists se tempPath, false)
    | .ok s2 =>
      match stRename s2 tempPath currentPath with
      | .error se => (removeIfExists se tempPath, false)
      | .ok s3 => (s3, true)

/-- The `if (ext === '.gltf')` block of lines 417-425: when the
conventional `scene.bin` sibling exists and a backup is requested and not
already present, copy the sibling to its own backup path. -/
def binBackupStep (cfg : Config) (s : St) (binPath binBackupPath ext : String) :
    Except St St :=
  if ext = ".gltf" then
    if stExists s binPath then
      if cfg.backupOriginal && !(stExists s binBackupPath) then
        stCopy s binPath binBackupPath
      else .ok s
    else .ok s
  else .ok s

/-- The final replacement of lines 408-425: conditional backup copy of
the (still untouched) original, `unlinkSync(inputPath)`,
`renameSync(currentPath, inputPath)`, then the `scene.bin` sibling
backup block.  Runs inside the outer `try`, so a throw propagates
(`Except.error`). -/
def commitRun (cfg : Config) (s : St)
    (inputPath currentPath backupPath binPath binBackupPath ext : String) :
    Except St St :=
  let step0 : Except St St :=
    if cfg.backupOriginal && !(stExists s backupPath) then
      stCopy s inputPath backupPath
    else .ok s
  match step0 with
  | .error e => .error e
  | .ok sA =>
    match stUnlink sA inputPath with
    | .error e => .error e
    | .ok sB =>
      match stRename sB currentPath inputPath with
      | .error e => .error e
      | .ok sC => binBackupStep cfg sC binPath binBackupPath ext

/-- `path.extname(inputPath)` as the source computes it. -/
def derivedExt (p : String) : String := jsExtname p

/-- The stage-1 output path `dir/baseName-optimized+ext` (line 334). -/
def derivedOutputPath (p : String) : String :=
  jsJoin (jsDirname p) (jsBasename p (jsExtname p) ++ "-optimized" ++ jsExtname p)

/-- The backup path `dir/baseName-original+ext` (line 335). -/
def derivedBackupPath (p : String) : String :=
  jsJoin (jsDirname p) (jsBasename p (jsExtname p) ++ "-original" ++ jsExtname p)

/-- The resize-stage temp path `outputPath.replace(ext, '-temp' + ext)`
(line 365). -/
def derivedTempPath (p : String) : String :=
  replaceFirstS (derivedOutputPath p) (jsExtname p) ("-temp" ++ jsExtname p)

/-- The webp-stage temp path `currentPath.replace(ext, '-temp2' + ext)`
(line 379); `currentPath` is never reassigned in the source, so it is the
stage-1 output path. -/
def derivedTemp2Path (p : String) : String :=
  replaceFirstS (derivedOutputPath p) (jsExtname p) ("-temp2" ++ jsExtname p)

/-- The conventional external-buffer sibling `dir/scene.bin` (line 418). -/
def derivedBinPath (p : String) : String :=
  jsJoin (jsDirname p) "scene.bin"

/-- Its backup path `dir/scene-original.bin` (line 420). -/
def derivedBinBackupPath (p : String) : String :=
  jsJoin (jsDirname p) "scene-original.bin"

/-- One per-stage entry of the pipeline outcome: the stage's name and
whether it was applied, the data the source's per-stage logging makes
observable. -/
structure StageResult where
  name : String
  applied : Bool
deriving DecidableEq

/-- The per-asset pipeline outcome: the ordered stage results and whether
the final replacement of the original asset was performed.  The source
reports this through its logs and reaches `committed = true` exactly when
the `renameSync(currentPath, inputPath)` of line 415 has succeeded. -/
structure Outcome where
  stages : List StageResult
  committed : Bool
deriving DecidableEq

/-- `optimizeModel(inputPath, options)`: validation pre-flight, the
mandatory `optimize` stage (fatal on failure, with the outer catch
deleting any partial output at the derived output path), the optional
`resize` stage (only when configured), the unconditional `webp` stage,
and the final commit.  Mirrors lines 319–435 of the source. -/
def optimizeModel (rt : Rt) (port : Port) (s0 : St) (inputPath : String)
    (o : Opts) : St × Outcome :=
  let cfg := resolveOpts o
  let ext := derivedExt inputPath
  let outputPath := derivedOutputPath inputPath
  let backupPath := derivedBackupPath inputPath
  match validateGltfModel rt s0.fsys inputPath with
  | .invalid _ => (s0, ⟨[], false⟩)
  | .valid =>
    match invokePort port s0 1 inputPath outputPath (.general cfg.compressDraco) with
    | .error s1 => (removeIfExists s1 outputPath, ⟨[⟨"optimize", false⟩], false⟩)
    | .ok s1 =>
      let step2 : St × List StageResult :=
        if cfg.resizeTextures then
          let r := stageTryRun port 2 (.resize cfg.maxTextureSize) s1 outputPath
            (derivedTempPath inputPath)
          (r.1, [⟨"resize", r.2⟩])
        else (s1, [])
      let r3 := stageTryRun port 3 .webp step2.1 outputPath (derivedTemp2Path inputPath)
      let stages : List StageResult :=
        ⟨"optimize", true⟩ :: step2.2 ++ [⟨"webp", r3.2⟩]
      match commitRun cfg r3.1 inputPath outputPath backupPath
          (derivedBinPath inputPath) (derivedBinBackupPath inputPath) ext with
      | .ok s4 => (s4, ⟨stages, true⟩)
      | .error s4 => (removeIfExists s4 outputPath, ⟨stages, false⟩)

/-! ### Basic lemmas about the state primitives -/

theorem fsUpd_same (f : FS) (p : String) (v : Option Bytes) : fsUpd f p v p = v := by
  simp [fsUpd]

theorem fsUpd_ne (f : FS) (p : String) (v : Option Bytes) {q : String}
    (h : q ≠ p) : fsUpd f p v q = f q := by
  simp [fsUpd, h]

theorem invokePort_ok_eq (port : Port) (s : St) (st : Nat) (inp outp : String)
    (ps : StageParams) {b o : Bytes}
    (hin : s.fsys inp = some b) (hp : port st b = .ok o) :
    invokePort port s st inp outp ps =
      .ok ⟨fsUpd s.fsys outp (some o), s.trace ++ [Ev.invoke st inp outp ps]⟩ := by
  simp [invokePort, hin, hp]

theorem invokePort_fail_none_eq (port : Port) (s : St) (st : Nat)
    (inp outp : String) (ps : StageParams) {b : Bytes}
    (hin : s.fsys inp = some b) (hp : port st b = .fail none) :
    invokePort port s st inp outp ps =
      .error ⟨s.fsys, s.trace ++ [Ev.invoke st inp outp ps]⟩ := by
  simp [invokePort, hin, hp]

theorem invokePort_fail_some_eq (port : Port) (s : St) (st : Nat)
    (inp outp : String) (ps : StageParams) {b w : Bytes}
    (hin : s.fsys inp = some b) (hp : port st b = .fail (some w)) :
    invokePort port s st inp outp ps =
      .error ⟨fsUpd s.fsys outp (some w), s.trace ++ [Ev.invoke st inp outp ps]⟩ := by
  simp [invokePort, hin, hp]

theorem removeIfExists_fsys_self (s : St) (p : String) :
    (removeIfExists s p).fsys p = none := by
  unfold removeIfExists stExists
  cases h : s.fsys p <;> simp [h, fsUpd_same]

theorem removeIfExists_fsys_ne (s : St) (p : String) {q : String} (h : q ≠ p) :
    (removeIfExists s p).fsys q = s.fsys q := by
  unfold removeIfExists
  split <;> simp [fsUpd_ne _ _ _ h]

theorem removeIfExists_trace (s : St) (p : String) :
    ∃ l, (removeIfExists s p).trace = s.trace ++ l ∧
      ∀ e ∈ l, e = Ev.unlink p := by
  unfold removeIfExists
  split
  · exact ⟨[Ev.unlink p], rfl, by simp⟩
  · exact ⟨[], by simp, by simp⟩

/-! ### Lemmas about one optional stage -/

/-- A successful optional stage: the port succeeds with output `o`, after
which the working copy holds `o`, the temp path is clear again, and the
trace extends by invoke / unlink / rename. -/
theorem stageTryRun_ok (port : Port) (st : Nat) (ps : StageParams) (s : St)
    (cur tmp : String) {b o : Bytes}
    (hin : s.fsys cur = some b) (hp : port st b = .ok o) (hct : tmp ≠ cur) :
    stageTryRun port st ps s cur tmp =
      (⟨fsUpd (fsUpd (fsUpd (fsUpd s.fsys tmp (some o)) cur none) tmp none) cur (some o),
        s.trace ++ [Ev.invoke st cur tmp ps, Ev.unlink cur, Ev.rename tmp cur]⟩,
       true) := by
  unfold stageTryRun
  rw [invokePort_ok_eq port s st cur tmp ps hin hp]
  unfold stUnlink
  simp only [fsUpd_ne _ _ _ (fun h => hct h.symm), hin]
  unfold stRename
  simp only [fsUpd_ne, fsUpd_same, hct, ne_eq, not_false_iff]
  simp [fsUpd_ne _ _ _ hct, fsUpd_same]

/-- A failed optional stage: the port fails, the working copy is kept
unchanged, the temp path is clear afterwards, every other path is
untouched, and after the invocation event only temp-file removals are
traced. -/
theorem stageTryRun_fail (port : Port) (st : Nat) (ps : StageParams) (s : St)
    (cur tmp : String) {b : Bytes} {w : Option Bytes}
    (hin : s.fsys cur = some b) (hp : port st b = .fail w) :
    (stageTryRun port st ps s cur tmp).2 = false ∧
    (stageTryRun port st ps s cur tmp).1.fsys tmp = none ∧
    (∀ q, q ≠ tmp → (stageTryRun port st ps s cur tmp).1.fsys q = s.fsys q) ∧
    ∃ l, (stageTryRun port st ps s cur tmp).1.trace
        = s.trace ++ Ev.invoke st cur tmp ps :: l ∧ ∀ e ∈ l, e = Ev.unlink tmp := by
  unfold stageTryRun
  cases w with
  | none =>
    rw [invokePort_fail_none_eq port s st cur tmp ps hin hp]
    refine ⟨rfl, removeIfExists_fsys_self _ _, fun q hq => removeIfExists_fsys_ne _ _ hq, ?_⟩
    obtain ⟨l, hl, he⟩ := removeIfExists_trace ⟨s.fsys, s.trace ++ [Ev.invoke st cur tmp ps]⟩ tmp
    exact ⟨l, by simpa using hl, he⟩
  | some wb =>
    rw [invokePort_fail_some_eq port s st cur tmp ps hin hp]
    refine ⟨rfl, removeIfExists_fsys_self _ _, ?_, ?_⟩
    · intro q hq
      rw [removeIfExists_fsys_ne _ _ hq]
      exact fsUpd_ne _ _ _ hq
    · obtain ⟨l, hl, he⟩ :=
        removeIfExists_trace ⟨fsUpd s.fsys tmp (some wb), s.trace ++ [Ev.invoke st cur tmp ps]⟩ tmp
      exact ⟨l, by simpa using hl, he⟩

/-- Any optional stage leaves paths other than its working copy and its
temp path untouched, whatever the port does. -/
theorem stageTryRun_preserves (port : Port) (st : Nat) (ps : StageParams)
    (s : St) (cur tmp : String) {q : String} (hq1 : q ≠ cur) (hq2 : q ≠ tmp) :
    (stageTryRun port st ps s cur tmp).1.fsys q = s.fsys q := by
  unfold stageTryRun invokePort
  cases hin : s.fsys cur with
  | none =>
    simp only [hin]
    exact removeIfExists_fsys_ne _ _ hq2
  | some b =>
    cases hp : port st b with
    | ok o =>
      simp only [hin, hp]
      unfold stUnlink
      cases h1 : fsUpd s.fsys tmp (some o) cur with
      | none =>
        simp only [h1]
        rw [removeIfExists_fsys_ne _ _ hq2]
        exact fsUpd_ne _ _ _ hq2
      | some b1 =>
        simp only [h1]
        unfold stRename
        cases h2 : fsUpd (fsUpd s.fsys tmp (some o)) cur none tmp with
        | none =>
          simp only [h2]
          rw [removeIfExists_fsys_ne _ _ hq2]
          simp [fsUpd, hq1, hq2]
        | some b2 =>
          simp only [h2]
          simp [fsUpd, hq1, hq2]
    | fail w =>
      cases w with
      | none =>
        simp only [hin, hp]
        exact removeIfExists_fsys_ne _ _ hq2
      | some wb =>
        simp only [hin, hp]
        rw [removeIfExists_fsys_ne _ _ hq2]
        exact fsUpd_ne _ _ _ hq2

/-- Any optional stage's trace extends the prior trace by its invocation
event followed only by its own unlink/rename bookkeeping. -/
theorem stageTryRun_trace (port : Port) (st : Nat) (ps : StageParams)
    (s : St) (cur tmp : String) :
    ∃ l, (stageTryRun port st ps s cur tmp).1.trace
        = s.trace ++ Ev.invoke st cur tmp ps :: l ∧
      ∀ e ∈ l, e = Ev.unlink cur ∨ e = Ev.rename tmp cur ∨ e = Ev.unlink tmp := by
  unfold stageTryRun invokePort
  cases hin : s.fsys cur with
  | none =>
    simp only [hin]
    obtain ⟨l, hl, he⟩ :=
      removeIfExists_trace ⟨s.fsys, s.trace ++ [Ev.invoke st cur tmp ps]⟩ tmp
    exact ⟨l, by simpa using hl, fun e hm => Or.inr (Or.inr (he e hm))⟩
  | some b =>
    cases hp : port st b with
    | ok o =>
      simp only [hin, hp]
      unfold stUnlink
      cases h1 : fsUpd s.fsys tmp (some o) cur with
      | none =>
        simp only [h1]
        obtain ⟨l, hl, he⟩ :=
          removeIfExists_trace ⟨fsUpd s.fsys tmp (some o), s.trace ++ [Ev.invoke st cur tmp ps]⟩ tmp
        exact ⟨l, by simpa using hl, fun e hm => Or.inr (Or.inr (he e hm))⟩
      | some b1 =>
        simp only [h1]
        unfold stRename
        cases h2 : fsUpd (fsUpd s.fsys tmp (some o)) cur none tmp with
        | none =>
          simp only [h2]
          obtain ⟨l, hl, he⟩ :=
            removeIfExists_trace
              ⟨fsUpd (fsUpd s.fsys tmp (some o)) cur none,
               (s.trace ++ [Ev.invoke st cur tmp ps]) ++ [Ev.unlink cur]⟩ tmp
          refine ⟨Ev.unlink cur :: l, ?_, ?_⟩
          · simpa using hl
          · intro e hm
            rw [List.mem_cons] at hm
            rcases hm with hm | hm
            · exact Or.inl hm
            · exact Or.inr (Or.inr (he e hm))
        | some b2 =>
          simp only [h2]
          refine ⟨[Ev.unlink cur, Ev.rename tmp cur], by simp, ?_⟩
          intro e hm
          rw [List.mem_cons] at hm
          rcases hm with hm | hm
          · exact Or.inl hm
          · rw [List.mem_singleton] at hm
            exact Or.inr (Or.inl hm)
    | fail w =>
      cases w with
      | none =>
        simp only [hin, hp]
        obtain ⟨l, hl, he⟩ :=
          removeIfExists_trace ⟨s.fsys, s.trace ++ [Ev.invoke st cur tmp ps]⟩ tmp
        exact ⟨l, by simpa using hl, fun e hm => Or.inr (Or.inr (he e hm))⟩
      | some wb =>
        simp only [hin, hp]
        obtain ⟨l, hl, he⟩ :=
          removeIfExists_trace ⟨fsUpd s.fsys tmp (some wb), s.trace ++ [Ev.invoke st cur tmp ps]⟩ tmp
        exact ⟨l, by simpa using hl, fun e hm => Or.inr (Or.inr (he e hm))⟩

/-- The state an `Except`-modelled filesystem step ends in, whether it
returned normally or threw. -/
def exSt : Except St St → St
  | .ok s => s
  | .error s => s

theorem invokePort_preserves (port : Port) (s : St) (st : Nat)
    (inp outp : String) (ps : StageParams) {q : String} (hq : q ≠ outp) :
    (exSt (invokePort port s st inp outp ps)).fsys q = s.fsys q := by
  unfold invokePort
  cases hin : s.fsys inp with
  | none => simp [hin, exSt]
  | some b =>
    cases hp : port st b with
    | ok o => simp [hin, hp, exSt, fsUpd_ne _ _ _ hq]
    | fail w =>
      cases w with
      | none => simp [hin, hp, exSt]
      | some wb => simp [hin, hp, exSt, fsUpd_ne _ _ _ hq]

theorem invokePort_trace (port : Port) (s : St) (st : Nat)
    (inp outp : String) (ps : StageParams) :
    (exSt (invokePort port s st inp outp ps)).trace
      = s.trace ++ [Ev.invoke st inp outp ps] := by
  unfold invokePort
  cases hin : s.fsys inp with
  | none => simp [hin, exSt]
  | some b =>
    cases hp : port st b with
    | ok o => simp [hin, hp, exSt]
    | fail w => cases w <;> simp [hin, hp, exSt]


/-- The sibling-backup block never throws, writes at most the sibling's
backup path, never overwrites an existing file there, and traces at most
one copy event. -/
theorem binBackupStep_spec (cfg : Config) (s : St)
    (binPath binBackupPath ext : String) :
    ∃ s', binBackupStep cfg s binPath binBackupPath ext = .ok s' ∧
      (∀ q, q ≠ binBackupPath → s'.fsys q = s.fsys q) ∧
      (∀ x, s.fsys binBackupPath = some x → s'.fsys binBackupPath = some x) ∧
      ∃ l, s'.trace = s.trace ++ l ∧ ∀ e ∈ l, e = Ev.copy binPath binBackupPath := by
  unfold binBackupStep
  by_cases hext : ext = ".gltf"
  · simp only [hext, if_true]
    cases hb : stExists s binPath with
    | false =>
      simp only [hb, Bool.false_eq_true, if_false]
      exact ⟨s, rfl, fun q _ => rfl, fun x hx => hx, [], by simp, by simp⟩
    | true =>
      simp only [hb, if_true]
      cases hg : cfg.backupOriginal && !(stExists s binBackupPath) with
      | false =>
        simp only [hg, Bool.false_eq_true, if_false]
        exact ⟨s, rfl, fun q _ => rfl, fun x hx => hx, [], by simp, by simp⟩
      | true =>
        unfold stExists at hb
        rw [Option.isSome_iff_exists] at hb
        obtain ⟨y, hy⟩ := hb
        simp only [stCopy, hy]
        refine ⟨_, rfl, ?_, ?_, ?_⟩
        · intro q hq
          exact fsUpd_ne _ _ _ hq
        · intro x hx
          have : stExists s binBackupPath = true := by
            unfold stExists
            rw [hx]
            rfl
          rw [this] at hg
          simp at hg
        · exact ⟨[Ev.copy binPath binBackupPath], by simp, by simp⟩
  · simp only [hext, if_false]
    exact ⟨s, rfl, fun q _ => rfl, fun x hx => hx, [], by simp, by simp⟩

/-- Full characterization of a commit that can go through: with the
original and the working copy both present and the involved paths
distinct, the commit succeeds, moves the working copy's bytes into the
original path, writes the backup exactly when requested and absent, and
touches nothing else. -/
theorem commitRun_spec (cfg : Config) (s : St)
    (inputPath currentPath backupPath binPath binBackupPath ext : String)
    {bIn bCur : Bytes}
    (hin : s.fsys inputPath = some bIn) (hcur : s.fsys currentPath = some bCur)
    (hcp : currentPath ≠ inputPath)
    (hbp1 : backupPath ≠ inputPath) (hbp2 : backupPath ≠ currentPath)
    (hbb1 : binBackupPath ≠ inputPath) (hbb2 : binBackupPath ≠ currentPath)
    (hbb3 : binBackupPath ≠ backupPath) :
    ∃ s', commitRun cfg s inputPath currentPath backupPath binPath binBackupPath ext
        = .ok s' ∧
      s'.fsys inputPath = some bCur ∧
      s'.fsys currentPath = none ∧
      s'.fsys backupPath =
        (if cfg.backupOriginal && (s.fsys backupPath).isNone then some bIn
         else s.fsys backupPath) ∧
      (∀ q, q ≠ inputPath → q ≠ currentPath → q ≠ backupPath → q ≠ binBackupPath →
        s'.fsys q = s.fsys q) ∧
      ∃ l, s'.trace = s.trace ++ l ∧
        ∀ e ∈ l, e = Ev.copy inputPath backupPath ∨ e = Ev.unlink inputPath
          ∨ e = Ev.rename currentPath inputPath ∨ e = Ev.copy binPath binBackupPath := by
  unfold commitRun
  cases hg : cfg.backupOriginal && !(stExists s backupPath) with
  | true =>
    have hbpv : (s.fsys backupPath).isNone = true := by
      rcases Bool.and_eq_true_iff.mp hg with ⟨_, h2⟩
      unfold stExists at h2
      simpa [Option.isNone_iff_eq_none, Option.isSome_iff_ne_none] using h2
    have hbO : cfg.backupOriginal = true := (Bool.and_eq_true_iff.mp hg).1
    simp only [hg, if_true, stCopy, hin]
    unfold stUnlink
    dsimp only
    rw [fsUpd_ne _ _ _ hbp1.symm, hin]
    unfold stRename
    dsimp only
    rw [fsUpd_ne _ _ _ hcp, fsUpd_ne _ _ _ hbp2.symm, hcur]
    obtain ⟨s', heq, hother, hkeep, l, htr, hl⟩ :=
      binBackupStep_spec cfg
        ⟨fsUpd (fsUpd (fsUpd (fsUpd s.fsys backupPath (some bIn)) inputPath none)
            currentPath none) inputPath (some bCur),
         s.trace ++ [Ev.copy inputPath backupPath] ++ [Ev.unlink inputPath]
           ++ [Ev.rename currentPath inputPath]⟩
        binPath binBackupPath ext
    refine ⟨s', heq, ?_, ?_, ?_, ?_, ?_⟩
    · rw [hother _ hbb1.symm]
      simp [fsUpd]
    · rw [hother _ hbb2.symm]
      simp [fsUpd, hcp]
    · rw [hother _ hbb3.symm]
      simp only [hbO, hbpv, Bool.and_self, if_true]
      simp [fsUpd, hbp1, hbp2]
    · intro q h1 h2 h3 h4
      rw [hother _ h4]
      simp [fsUpd, h1, h2, h3]
    · refine ⟨[Ev.copy inputPath backupPath, Ev.unlink inputPath,
        Ev.rename currentPath inputPath] ++ l, by simpa using htr, ?_⟩
      intro e hm
      rw [List.mem_append] at hm
      rcases hm with hm | hm
      · simp only [List.mem_cons, List.mem_singleton] at hm
        tauto
      · exact Or.inr (Or.inr (Or.inr (hl e hm)))
  | false =>
    have hbpv : (cfg.backupOriginal && (s.fsys backupPath).isNone) = false := by
      cases hB : cfg.backupOriginal
      · simp [hB]
      · rw [hB] at hg
        simp only [Bool.true_and] at hg ⊢
        unfold stExists at hg
        simpa [Option.isNone_iff_eq_none, Option.isSome_iff_ne_none] using hg
    simp only [hg, Bool.false_eq_true, if_false]
    unfold stUnlink
    try dsimp only
    rw [hin]
    unfold stRename
    dsimp only
    rw [fsUpd_ne _ _ _ hcp, hcur]
    obtain ⟨s', heq, hother, hkeep, l, htr, hl⟩ :=
      binBackupStep_spec cfg
        ⟨fsUpd (fsUpd (fsUpd s.fsys inputPath none) currentPath none)
            inputPath (some bCur),
         s.trace ++ [Ev.unlink inputPath] ++ [Ev.rename currentPath inputPath]⟩
        binPath binBackupPath ext
    refine ⟨s', heq, ?_, ?_, ?_, ?_, ?_⟩
    · rw [hother _ hbb1.symm]
      simp [fsUpd]
    · rw [hother _ hbb2.symm]
      simp [fsUpd, hcp]
    · rw [hother _ hbb3.symm]
      rw [hbpv]
      simp [fsUpd, hbp1, hbp2]
    · intro q h1 h2 h3 h4
      rw [hother _ h4]
      simp [fsUpd, h1, h2, h3]
    · refine ⟨[Ev.unlink inputPath, Ev.rename currentPath inputPath] ++ l,
        by simpa using htr, ?_⟩
      intro e hm
      rw [List.mem_append] at hm
      rcases hm with hm | hm
      · simp only [List.mem_cons, List.mem_singleton] at hm
        tauto
      · exact Or.inr (Or.inr (Or.inr (hl e hm)))

/-- The commit phase never overwrites an existing backup file, whether it
completes or throws. -/
theorem commitRun_preserves_backup (cfg : Config) (s : St)
    (inputPath currentPath backupPath binPath binBackupPath ext : String)
    {x : Bytes} (hx : s.fsys backupPath = some x)
    (hbp1 : backupPath ≠ inputPath) (hbp2 : backupPath ≠ currentPath)
    (hbb3 : binBackupPath ≠ backupPath) :
    (exSt (commitRun cfg s inputPath currentPath backupPath binPath binBackupPath ext)).fsys
      backupPath = some x := by
  unfold commitRun
  have hg : (cfg.backupOriginal && !(stExists s backupPath)) = false := by
    unfold stExists
    simp [hx]
  simp only [hg, Bool.false_eq_true, if_false]
  unfold stUnlink
  cases hpin : s.fsys inputPath with
  | none => simpa [exSt] using hx
  | some bIn =>
    unfold stRename
    try dsimp only
    cases hpcur : fsUpd s.fsys inputPath none currentPath with
    | none =>
      simp only [exSt]
      rw [fsUpd_ne _ _ _ hbp1]
      exact hx
    | some bCur =>
      obtain ⟨s', heq, hother, hkeep, l, htr, hl⟩ :=
        binBackupStep_spec cfg
          ⟨fsUpd (fsUpd (fsUpd s.fsys inputPath none) currentPath none)
              inputPath (some bCur),
           s.trace ++ [Ev.unlink inputPath] ++ [Ev.rename currentPath inputPath]⟩
          binPath binBackupPath ext
      try dsimp only
      rw [heq]
      simp only [exSt]
      rw [hother _ hbb3.symm]
      simp only [fsUpd_ne _ _ _ hbp1, fsUpd_ne _ _ _ hbp2]
      exact hx

/-- Whatever happens during the commit phase, its trace only appends the
commit's own copy/unlink/rename events. -/
theorem commitRun_trace (cfg : Config) (s : St)
    (inputPath currentPath backupPath binPath binBackupPath ext : String) :
    ∃ l, (exSt (commitRun cfg s inputPath currentPath backupPath binPath
        binBackupPath ext)).trace = s.trace ++ l ∧
      ∀ e ∈ l, e = Ev.copy inputPath backupPath ∨ e = Ev.unlink inputPath
        ∨ e = Ev.rename currentPath inputPath ∨ e = Ev.copy binPath binBackupPath := by
  unfold commitRun
  cases hg : cfg.backupOriginal && !(stExists s backupPath) with
  | false =>
    simp only [hg, Bool.false_eq_true, if_false]
    unfold stUnlink
    cases hpin : s.fsys inputPath with
    | none => exact ⟨[], by simp [exSt], by simp⟩
    | some bIn =>
      unfold stRename
      try dsimp only
      cases hpcur : fsUpd s.fsys inputPath none currentPath with
      | none =>
        refine ⟨[Ev.unlink inputPath], by simp [exSt], ?_⟩
        intro e hm
        rw [List.mem_singleton] at hm
        exact Or.inr (Or.inl hm)
      | some bCur =>
        obtain ⟨s', heq, hother, hkeep, l, htr, hl⟩ :=
          binBackupStep_spec cfg
            ⟨fsUpd (fsUpd (fsUpd s.fsys inputPath none) currentPath none)
                inputPath (some bCur),
             s.trace ++ [Ev.unlink inputPath] ++ [Ev.rename currentPath inputPath]⟩
            binPath binBackupPath ext
        try dsimp only
        rw [heq]
        refine ⟨[Ev.unlink inputPath, Ev.rename currentPath inputPath] ++ l, ?_, ?_⟩
        · simp only [exSt]
          simpa using htr
        · intro e hm
          rw [List.mem_append] at hm
          rcases hm with hm | hm
          · simp only [List.mem_cons, List.mem_singleton] at hm
            tauto
          · exact Or.inr (Or.inr (Or.inr (hl e hm)))
  | true =>
    simp only [hg, if_true, stCopy]
    cases hpin : s.fsys inputPath with
    | none => exact ⟨[], by simp [exSt], by simp⟩
    | some bIn =>
      unfold stUnlink
      try dsimp only
      cases hpin2 : fsUpd s.fsys backupPath (some bIn) inputPath with
      | none =>
        refine ⟨[Ev.copy inputPath backupPath], by simp [exSt], ?_⟩
        intro e hm
        rw [List.mem_singleton] at hm
        exact Or.inl hm
      | some bIn2 =>
        unfold stRename
        try dsimp only
        cases hpcur : fsUpd (fsUpd s.fsys backupPath (some bIn)) inputPath none
            currentPath with
        | none =>
          refine ⟨[Ev.copy inputPath backupPath, Ev.unlink inputPath],
            by simp [exSt], ?_⟩
          intro e hm
          simp only [List.mem_cons, List.mem_singleton] at hm
          tauto
        | some bCur =>
          obtain ⟨s', heq, hother, hkeep, l, htr, hl⟩ :=
            binBackupStep_spec cfg
              ⟨fsUpd (fsUpd (fsUpd (fsUpd s.fsys backupPath (some bIn)) inputPath none)
                  currentPath none) inputPath (some bCur),
               s.trace ++ [Ev.copy inputPath backupPath] ++ [Ev.unlink inputPath]
                 ++ [Ev.rename currentPath inputPath]⟩
              binPath binBackupPath ext
          try dsimp only
          rw [heq]
          refine ⟨[Ev.copy inputPath backupPath, Ev.unlink inputPath,
            Ev.rename currentPath inputPath] ++ l, ?_, ?_⟩
          · simp only [exSt]
            simpa using htr
          · intro e hm
            rw [List.mem_append] at hm
            rcases hm with hm | hm
            · simp only [List.mem_cons, List.mem_singleton] at hm
              tauto
            · exact Or.inr (Or.inr (Or.inr (hl e hm)))

/-- The pairwise distinctness of the paths the pipeline derives from an
asset path, together with the asset path itself — true of every ordinary
asset name, and checkable by `decide` on any concrete path. -/
abbrev PathsSeparated (p : String) : Prop :=
  derivedOutputPath p ≠ p ∧ derivedTempPath p ≠ p ∧ derivedTemp2Path p ≠ p ∧
  derivedBackupPath p ≠ p ∧ derivedBinBackupPath p ≠ p ∧
  derivedTempPath p ≠ derivedOutputPath p ∧ derivedTemp2Path p ≠ derivedOutputPath p ∧
  derivedBackupPath p ≠ derivedOutputPath p ∧ derivedBinBackupPath p ≠ derivedOutputPath p ∧
  derivedTemp2Path p ≠ derivedTempPath p ∧ derivedBackupPath p ≠ derivedTempPath p ∧
  derivedBinBackupPath p ≠ derivedTempPath p ∧ derivedBackupPath p ≠ derivedTemp2Path p ∧
  derivedBinBackupPath p ≠ derivedTemp2Path p ∧ derivedBinBackupPath p ≠ derivedBackupPath p

/-- A whole pipeline run never overwrites an existing backup file. -/
theorem optimize_preserves_backup (rt : Rt) (port : Port) (s0 : St) (p : String)
    (o : Opts) {x : Bytes}
    (hx : s0.fsys (derivedBackupPath p) = some x)
    (hpaths : PathsSeparated p) :
    ((optimizeModel rt port s0 p o).1).fsys (derivedBackupPath p) = some x := by
  obtain ⟨hA1, hA2, hA3, hA4, hA5, hA6, hA7, hA8, hA9, hA10,
    hA11, hA12, hA13, hA14, hA15⟩ := hpaths
  unfold optimizeModel
  try dsimp only
  split
  · exact hx
  · split
    next s1 hi =>
      try dsimp only
      rw [removeIfExists_fsys_ne _ _ hA8]
      have hp1 := invokePort_preserves port s0 1 p (derivedOutputPath p)
        (StageParams.general (resolveOpts o).compressDraco) hA8
      rw [hi] at hp1
      simp only [exSt] at hp1
      rw [hp1]
      exact hx
    next s1 hi =>
      have hp1 := invokePort_preserves port s0 1 p (derivedOutputPath p)
        (StageParams.general (resolveOpts o).compressDraco) hA8
      rw [hi] at hp1
      simp only [exSt] at hp1
      by_cases hrz : (resolveOpts o).resizeTextures = true
      · simp only [hrz, if_true]
        try dsimp only
        have hp2 := stageTryRun_preserves port 2
          (StageParams.resize (resolveOpts o).maxTextureSize) s1
          (derivedOutputPath p) (derivedTempPath p) hA8 hA11
        have hp3 := stageTryRun_preserves port 3 StageParams.webp
          (stageTryRun port 2 (StageParams.resize (resolveOpts o).maxTextureSize) s1
            (derivedOutputPath p) (derivedTempPath p)).1
          (derivedOutputPath p) (derivedTemp2Path p) hA8 hA13
        have hbval : (stageTryRun port 3 StageParams.webp
            (stageTryRun port 2 (StageParams.resize (resolveOpts o).maxTextureSize) s1
              (derivedOutputPath p) (derivedTempPath p)).1
            (derivedOutputPath p) (derivedTemp2Path p)).1.fsys (derivedBackupPath p)
            = some x := by
          rw [hp3, hp2, hp1]
          exact hx
        split
        next s4 hc =>
          try dsimp only
          have hpc := commitRun_preserves_backup (resolveOpts o) _ p
            (derivedOutputPath p) (derivedBackupPath p) (derivedBinPath p)
            (derivedBinBackupPath p) (derivedExt p) hbval hA4 hA8 hA15
          rw [hc] at hpc
          simpa only [exSt] using hpc
        next s4 hc =>
          try dsimp only
          rw [removeIfExists_fsys_ne _ _ hA8]
          have hpc := commitRun_preserves_backup (resolveOpts o) _ p
            (derivedOutputPath p) (derivedBackupPath p) (derivedBinPath p)
            (derivedBinBackupPath p) (derivedExt p) hbval hA4 hA8 hA15
          rw [hc] at hpc
          simpa only [exSt] using hpc
      · simp only [Bool.not_eq_true] at hrz
        simp only [hrz, Bool.false_eq_true, if_false]
        try dsimp only
        have hp3 := stageTryRun_preserves port 3 StageParams.webp s1
          (derivedOutputPath p) (derivedTemp2Path p) hA8 hA13
        have hbval : (stageTryRun port 3 StageParams.webp s1
            (derivedOutputPath p) (derivedTemp2Path p)).1.fsys (derivedBackupPath p)
            = some x := by
          rw [hp3, hp1]
          exact hx
        split
        next s4 hc =>
          try dsimp only
          have hpc := commitRun_preserves_backup (resolveOpts o) _ p
            (derivedOutputPath p) (derivedBackupPath p) (derivedBinPath p)
            (derivedBinBackupPath p) (derivedExt p) hbval hA4 hA8 hA15
          rw [hc] at hpc
          simpa only [exSt] using hpc
        next s4 hc =>
          try dsimp only
          rw [removeIfExists_fsys_ne _ _ hA8]
          have hpc := commitRun_preserves_backup (resolveOpts o) _ p
            (derivedOutputPath p) (derivedBackupPath p) (derivedBinPath p)
            (derivedBinBackupPath p) (derivedExt p) hbval hA4 hA8 hA15
          rw [hc] at hpc
          simpa only [exSt] using hpc

/-- An optional stage always leaves a file at the working-copy path:
either untouched on failure, or the stage's own output after the rename. -/
theorem stageTryRun_keeps_cur (port : Port) (st : Nat) (ps : StageParams)
    (s : St) (cur tmp : String) {b : Bytes}
    (hin : s.fsys cur = some b) (hct : tmp ≠ cur) :
    ∃ bq, (stageTryRun port st ps s cur tmp).1.fsys cur = some bq := by
  cases hp : port st b with
  | ok o =>
    rw [stageTryRun_ok port st ps s cur tmp hin hp hct]
    exact ⟨o, fsUpd_same _ _ _⟩
  | fail w =>
    obtain ⟨-, -, hother, -⟩ := stageTryRun_fail port st ps s cur tmp hin hp
    exact ⟨b, by rw [hother cur (fun h => hct h.symm)]; exact hin⟩

/-- When a run commits, and a backup was requested with none present
beforehand, the backup file afterwards holds the pre-pipeline bytes of
the original asset (never the working copy). -/
theorem optimize_committed_writes_backup (rt : Rt) (port : Port) (s0 : St)
    (p : String) (o : Opts) {b0 : Bytes}
    (hb0 : s0.fsys p = some b0)
    (hbO : (resolveOpts o).backupOriginal = true)
    (hbp0 : s0.fsys (derivedBackupPath p) = none)
    (hpaths : PathsSeparated p) :
    (optimizeModel rt port s0 p o).2.committed = false ∨
    ((optimizeModel rt port s0 p o).1).fsys (derivedBackupPath p) = some b0 := by
  obtain ⟨hA1, hA2, hA3, hA4, hA5, hA6, hA7, hA8, hA9, hA10,
    hA11, hA12, hA13, hA14, hA15⟩ := hpaths
  unfold optimizeModel
  try dsimp only
  split
  · left; rfl
  · split
    next s1 hi =>
      left; rfl
    next s1 hi =>
      simp only [invokePort, hb0] at hi
      cases hp1 : port 1 b0 with
      | fail w =>
        rw [hp1] at hi
        cases w <;> simp at hi
      | ok o1 =>
        rw [hp1] at hi
        simp only [Except.ok.injEq] at hi
        have hs1p : s1.fsys p = some b0 := by
          rw [← hi]
          exact (fsUpd_ne _ _ _ hA1.symm).trans hb0
        have hs1bp : s1.fsys (derivedBackupPath p) = none := by
          rw [← hi]
          exact (fsUpd_ne _ _ _ hA8).trans hbp0
        have hs1op : s1.fsys (derivedOutputPath p) = some o1 := by
          rw [← hi]
          exact fsUpd_same _ _ _
        by_cases hrz : (resolveOpts o).resizeTextures = true
        · simp only [hrz, if_true]
          try dsimp only
          have hs2p : (stageTryRun port 2 (StageParams.resize (resolveOpts o).maxTextureSize)
              s1 (derivedOutputPath p) (derivedTempPath p)).1.fsys p = some b0 :=
            (stageTryRun_preserves _ _ _ _ _ _ hA1.symm hA2.symm).trans hs1p
          have hs2bp : (stageTryRun port 2 (StageParams.resize (resolveOpts o).maxTextureSize)
              s1 (derivedOutputPath p) (derivedTempPath p)).1.fsys (derivedBackupPath p)
              = none :=
            (stageTryRun_preserves _ _ _ _ _ _ hA8 hA11).trans hs1bp
          obtain ⟨b2, hs2op⟩ := stageTryRun_keeps_cur port 2
            (StageParams.resize (resolveOpts o).maxTextureSize) s1
            (derivedOutputPath p) (derivedTempPath p) hs1op hA6
          have hs3p : (stageTryRun port 3 StageParams.webp
              (stageTryRun port 2 (StageParams.resize (resolveOpts o).maxTextureSize) s1
                (derivedOutputPath p) (derivedTempPath p)).1
              (derivedOutputPath p) (derivedTemp2Path p)).1.fsys p = some b0 :=
            (stageTryRun_preserves _ _ _ _ _ _ hA1.symm hA3.symm).trans hs2p
          have hs3bp : (stageTryRun port 3 StageParams.webp
              (stageTryRun port 2 (StageParams.resize (resolveOpts o).maxTextureSize) s1
                (derivedOutputPath p) (derivedTempPath p)).1
              (derivedOutputPath p) (derivedTemp2Path p)).1.fsys (derivedBackupPath p)
              = none :=
            (stageTryRun_preserves _ _ _ _ _ _ hA8 hA13).trans hs2bp
          obtain ⟨b3, hs3op⟩ := stageTryRun_keeps_cur port 3 StageParams.webp
            (stageTryRun port 2 (StageParams.resize (resolveOpts o).maxTextureSize) s1
              (derivedOutputPath p) (derivedTempPath p)).1
            (derivedOutputPath p) (derivedTemp2Path p) hs2op hA7
          obtain ⟨s', heq, hfin_in, hfin_cur, hfin_bp, hfin_other, -⟩ :=
            commitRun_spec (resolveOpts o) _ p (derivedOutputPath p)
              (derivedBackupPath p) (derivedBinPath p) (derivedBinBackupPath p)
              (derivedExt p) hs3p hs3op hA1 hA4 hA8 hA5 hA9 hA15
          split
          next s4 hc =>
            right
            try dsimp only
            rw [heq] at hc
            simp only [Except.ok.injEq] at hc
            rw [← hc]
            rw [hfin_bp]
            simp [hbO, hs3bp]
          next s4 hc =>
            left; rfl
        · simp only [Bool.not_eq_true] at hrz
          simp only [hrz, Bool.false_eq_true, if_false]
          try dsimp only
          have hs3p : (stageTryRun port 3 StageParams.webp s1
              (derivedOutputPath p) (derivedTemp2Path p)).1.fsys p = some b0 :=
            (stageTryRun_preserves _ _ _ _ _ _ hA1.symm hA3.symm).trans hs1p
          have hs3bp : (stageTryRun port 3 StageParams.webp s1
              (derivedOutputPath p) (derivedTemp2Path p)).1.fsys (derivedBackupPath p)
              = none :=
            (stageTryRun_preserves _ _ _ _ _ _ hA8 hA13).trans hs1bp
          obtain ⟨b3, hs3op⟩ := stageTryRun_keeps_cur port 3 StageParams.webp s1
            (derivedOutputPath p) (derivedTemp2Path p) hs1op hA7
          obtain ⟨s', heq, hfin_in, hfin_cur, hfin_bp, hfin_other, -⟩ :=
            commitRun_spec (resolveOpts o) _ p (derivedOutputPath p)
              (derivedBackupPath p) (derivedBinPath p) (derivedBinBackupPath p)
              (derivedExt p) hs3p hs3op hA1 hA4 hA8 hA5 hA9 hA15
          split
          next s4 hc =>
            right
            try dsimp only
            rw [heq] at hc
            simp only [Except.ok.injEq] at hc
            rw [← hc]
            rw [hfin_bp]
            simp [hbO, hs3bp]
          next s4 hc =>
            left; rfl

/-! ### Claim theorems -/

/-- Witness file system: one ordinary asset file. -/
def fsW : FS := fun q => if q = "m.obj" then some [1, 2, 3] else none

/-- Witness initial state. -/
def stW : St := ⟨fsW, []⟩

/-- Witness runtime (never consulted for a non-`.gltf`, non-`.glb` path). -/
def rtW : Rt := ⟨fun _ => .ok, fun _ => .parseErr "unexpected"⟩

/-- Witness port on which every stage succeeds. -/
def portAllOk : Port := fun st _ => .ok [st]

/-- Witness port on which the mandatory stage fails leaving a partial
file, and the optional stages would succeed. -/
def portStage1Fails : Port := fun st b =>
  if st = 1 then .fail (some [9]) else .ok b

/-- Witness port on which the resize stage fails and the other stages
succeed, each appending its stage index. -/
def portResizeFails : Port := fun st b =>
  if st = 2 then .fail none else .ok (b ++ [st])

/-- Caller-supplied options with every property omitted. -/
def optsNone : Opts := ⟨none, none, none, none⟩

/-- C1: if the mandatory (general optimization) stage fails, `optimizeModel`
aborts: the outcome is not committed, the original file's bytes are
unchanged, any partial output at the derived output path is deleted, and
no temp file exists afterwards (none having been created). -/
theorem optimize_mandatory_failure_aborts (rt : Rt) (port : Port) (s0 : St)
    (p : String) (o : Opts) (b0 : Bytes) (pw : Bytes → Option Bytes)
    (hval : validateGltfModel rt s0.fsys p = .valid)
    (hb0 : s0.fsys p = some b0)
    (hfail : ∀ b, port 1 b = .fail (pw b))
    (hs1 : s0.fsys (derivedTempPath p) = none)
    (hs2 : s0.fsys (derivedTemp2Path p) = none)
    (hpaths : PathsSeparated p) :
    (optimizeModel rt port s0 p o).2.committed = false ∧
    (optimizeModel rt port s0 p o).1.fsys p = some b0 ∧
    (optimizeModel rt port s0 p o).1.fsys (derivedOutputPath p) = none ∧
    (optimizeModel rt port s0 p o).1.fsys (derivedTempPath p) = none ∧
    (optimizeModel rt port s0 p o).1.fsys (derivedTemp2Path p) = none := by
  obtain ⟨hA1, hA2, hA3, hA4, hA5, hA6, hA7, hA8, hA9, hA10,
    hA11, hA12, hA13, hA14, hA15⟩ := hpaths
  unfold optimizeModel
  simp only [hval]
  try dsimp only
  cases hpw : pw b0 with
  | none =>
    rw [invokePort_fail_none_eq port s0 1 p (derivedOutputPath p)
      (StageParams.general (resolveOpts o).compressDraco) hb0
      ((hfail b0).trans (by rw [hpw]))]
    try dsimp only
    refine ⟨rfl, ?_, ?_, ?_, ?_⟩
    · rw [removeIfExists_fsys_ne _ _ hA1.symm]
      exact hb0
    · exact removeIfExists_fsys_self _ _
    · rw [removeIfExists_fsys_ne _ _ hA6]
      exact hs1
    · rw [removeIfExists_fsys_ne _ _ hA7]
      exact hs2
  | some w =>
    rw [invokePort_fail_some_eq port s0 1 p (derivedOutputPath p)
      (StageParams.general (resolveOpts o).compressDraco) hb0
      ((hfail b0).trans (by rw [hpw]))]
    try dsimp only
    refine ⟨rfl, ?_, ?_, ?_, ?_⟩
    · rw [removeIfExists_fsys_ne _ _ hA1.symm]
      exact (fsUpd_ne _ _ _ hA1.symm).trans hb0
    · exact removeIfExists_fsys_self _ _
    · rw [removeIfExists_fsys_ne _ _ hA6]
      exact (fsUpd_ne _ _ _ hA6).trans hs1
    · rw [removeIfExists_fsys_ne _ _ hA7]
      exact (fsUpd_ne _ _ _ hA7).trans hs2

/-- Witness for C1 at a concrete asset and failing port stub. -/
theorem optimize_mandatory_failure_aborts_witness :
    (validateGltfModel rtW stW.fsys "m.obj" = .valid ∧
     stW.fsys "m.obj" = some [1, 2, 3] ∧
     (∀ b, portStage1Fails 1 b = .fail ((fun _ => some [9]) b)) ∧
     stW.fsys (derivedTempPath "m.obj") = none ∧
     stW.fsys (derivedTemp2Path "m.obj") = none ∧
     PathsSeparated "m.obj") ∧
    ((optimizeModel rtW portStage1Fails stW "m.obj" optsNone).2.committed = false ∧
     (optimizeModel rtW portStage1Fails stW "m.obj" optsNone).1.fsys "m.obj"
       = some [1, 2, 3] ∧
     (optimizeModel rtW portStage1Fails stW "m.obj" optsNone).1.fsys
       (derivedOutputPath "m.obj") = none ∧
     (optimizeModel rtW portStage1Fails stW "m.obj" optsNone).1.fsys
       (derivedTempPath "m.obj") = none ∧
     (optimizeModel rtW portStage1Fails stW "m.obj" optsNone).1.fsys
       (derivedTemp2Path "m.obj") = none) :=
  ⟨⟨by decide, by decide, fun _ => rfl, by decide, by decide, by decide⟩,
   optimize_mandatory_failure_aborts rtW portStage1Fails stW "m.obj" optsNone
     [1, 2, 3] (fun _ => some [9]) (by decide) (by decide) (fun _ => rfl)
     (by decide) (by decide) (by decide)⟩

/-- C2: when the mandatory stage succeeds, the resize stage fails and the
webp re-encode stage succeeds, the pipeline keeps the prior working copy,
deletes the resize stage's partial output, still runs the re-encode
stage on that working copy, and commits the re-encode output to the
original path; the outcome records resize as not applied and webp as
applied. -/
theorem optimize_optional_resize_failure_recovered (rt : Rt) (port : Port)
    (s0 : St) (p : String) (o : Opts) (b0 o1 o3 : Bytes) (w : Option Bytes)
    (hval : validateGltfModel rt s0.fsys p = .valid)
    (hb0 : s0.fsys p = some b0)
    (hrz : (resolveOpts o).resizeTextures = true)
    (h1 : port 1 b0 = .ok o1)
    (h2 : port 2 o1 = .fail w)
    (h3 : port 3 o1 = .ok o3)
    (hpaths : PathsSeparated p) :
    (optimizeModel rt port s0 p o).2 =
      ⟨[⟨"optimize", true⟩, ⟨"resize", false⟩, ⟨"webp", true⟩], true⟩ ∧
    (optimizeModel rt port s0 p o).1.fsys p = some o3 ∧
    (optimizeModel rt port s0 p o).1.fsys (derivedOutputPath p) = none ∧
    (optimizeModel rt port s0 p o).1.fsys (derivedTempPath p) = none ∧
    (optimizeModel rt port s0 p o).1.fsys (derivedTemp2Path p) = none := by
  obtain ⟨hA1, hA2, hA3, hA4, hA5, hA6, hA7, hA8, hA9, hA10,
    hA11, hA12, hA13, hA14, hA15⟩ := hpaths
  unfold optimizeModel
  simp only [hval]
  try dsimp only
  rw [invokePort_ok_eq port s0 1 p (derivedOutputPath p)
    (StageParams.general (resolveOpts o).compressDraco) hb0 h1]
  simp only [hrz, if_true]
  try dsimp only
  obtain ⟨hap2, ht1none, hother2, l2, htr2, hl2⟩ :=
    stageTryRun_fail port 2 (StageParams.resize (resolveOpts o).maxTextureSize)
      ⟨fsUpd s0.fsys (derivedOutputPath p) (some o1),
       s0.trace ++ [Ev.invoke 1 p (derivedOutputPath p)
         (StageParams.general (resolveOpts o).compressDraco)]⟩
      (derivedOutputPath p) (derivedTempPath p) (fsUpd_same _ _ _) h2
  rw [hap2]
  have hs2op : (stageTryRun port 2 (StageParams.resize (resolveOpts o).maxTextureSize)
      ⟨fsUpd s0.fsys (derivedOutputPath p) (some o1),
       s0.trace ++ [Ev.invoke 1 p (derivedOutputPath p)
         (StageParams.general (resolveOpts o).compressDraco)]⟩
      (derivedOutputPath p) (derivedTempPath p)).1.fsys (derivedOutputPath p)
      = some o1 := by
    rw [hother2 _ hA6.symm]
    exact fsUpd_same _ _ _
  have hs3eq := stageTryRun_ok port 3 StageParams.webp
    (stageTryRun port 2 (StageParams.resize (resolveOpts o).maxTextureSize)
      ⟨fsUpd s0.fsys (derivedOutputPath p) (some o1),
       s0.trace ++ [Ev.invoke 1 p (derivedOutputPath p)
         (StageParams.general (resolveOpts o).compressDraco)]⟩
      (derivedOutputPath p) (derivedTempPath p)).1
    (derivedOutputPath p) (derivedTemp2Path p) hs2op h3 hA7
  have h3ap : (stageTryRun port 3 StageParams.webp
      (stageTryRun port 2 (StageParams.resize (resolveOpts o).maxTextureSize)
        ⟨fsUpd s0.fsys (derivedOutputPath p) (some o1),
         s0.trace ++ [Ev.invoke 1 p (derivedOutputPath p)
           (StageParams.general (resolveOpts o).compressDraco)]⟩
        (derivedOutputPath p) (derivedTempPath p)).1
      (derivedOutputPath p) (derivedTemp2Path p)).2 = true := by
    rw [hs3eq]
  have h3p : (stageTryRun port 3 StageParams.webp
      (stageTryRun port 2 (StageParams.resize (resolveOpts o).maxTextureSize)
        ⟨fsUpd s0.fsys (derivedOutputPath p) (some o1),
         s0.trace ++ [Ev.invoke 1 p (derivedOutputPath p)
           (StageParams.general (resolveOpts o).compressDraco)]⟩
        (derivedOutputPath p) (derivedTempPath p)).1
      (derivedOutputPath p) (derivedTemp2Path p)).1.fsys p = some b0 := by
    rw [hs3eq]
    try dsimp only
    rw [fsUpd_ne _ _ _ hA1.symm, fsUpd_ne _ _ _ hA3.symm,
      fsUpd_ne _ _ _ hA1.symm, fsUpd_ne _ _ _ hA3.symm,
      hother2 _ hA2.symm]
    exact (fsUpd_ne _ _ _ hA1.symm).trans hb0
  have h3cur : (stageTryRun port 3 StageParams.webp
      (stageTryRun port 2 (StageParams.resize (resolveOpts o).maxTextureSize)
        ⟨fsUpd s0.fsys (derivedOutputPath p) (some o1),
         s0.trace ++ [Ev.invoke 1 p (derivedOutputPath p)
           (StageParams.general (resolveOpts o).compressDraco)]⟩
        (derivedOutputPath p) (derivedTempPath p)).1
      (derivedOutputPath p) (derivedTemp2Path p)).1.fsys (derivedOutputPath p)
      = some o3 := by
    rw [hs3eq]
    try dsimp only
    exact fsUpd_same _ _ _
  have h3t1 : (stageTryRun port 3 StageParams.webp
      (stageTryRun port 2 (StageParams.resize (resolveOpts o).maxTextureSize)
        ⟨fsUpd s0.fsys (derivedOutputPath p) (some o1),
         s0.trace ++ [Ev.invoke 1 p (derivedOutputPath p)
           (StageParams.general (resolveOpts o).compressDraco)]⟩
        (derivedOutputPath p) (derivedTempPath p)).1
      (derivedOutputPath p) (derivedTemp2Path p)).1.fsys (derivedTempPath p)
      = none := by
    rw [hs3eq]
    try dsimp only
    rw [fsUpd_ne _ _ _ hA6, fsUpd_ne _ _ _ hA10.symm,
      fsUpd_ne _ _ _ hA6, fsUpd_ne _ _ _ hA10.symm]
    exact ht1none
  have h3t2 : (stageTryRun port 3 StageParams.webp
      (stageTryRun port 2 (StageParams.resize (resolveOpts o).maxTextureSize)
        ⟨fsUpd s0.fsys (derivedOutputPath p) (some o1),
         s0.trace ++ [Ev.invoke 1 p (derivedOutputPath p)
           (StageParams.general (resolveOpts o).compressDraco)]⟩
        (derivedOutputPath p) (derivedTempPath p)).1
      (derivedOutputPath p) (derivedTemp2Path p)).1.fsys (derivedTemp2Path p)
      = none := by
    rw [hs3eq]
    try dsimp only
    rw [fsUpd_ne _ _ _ hA7, fsUpd_same]
  rw [h3ap]
  obtain ⟨s', heq, hfin_in, hfin_cur, hfin_bp, hfin_other, -⟩ :=
    commitRun_spec (resolveOpts o) _ p (derivedOutputPath p)
      (derivedBackupPath p) (derivedBinPath p) (derivedBinBackupPath p)
      (derivedExt p) h3p h3cur hA1 hA4 hA8 hA5 hA9 hA15
  rw [heq]
  try dsimp only
  refine ⟨rfl, hfin_in, hfin_cur, ?_, ?_⟩
  · rw [hfin_other _ hA2 hA6 hA11.symm hA12.symm]
    exact h3t1
  · rw [hfin_other _ hA3 hA7 hA13.symm hA14.symm]
    exact h3t2

/-- Witness for C2 at a concrete asset and a resize-failing port stub. -/
theorem optimize_optional_resize_failure_recovered_witness :
    (validateGltfModel rtW stW.fsys "m.obj" = .valid ∧
     stW.fsys "m.obj" = some [1, 2, 3] ∧
     (resolveOpts optsNone).resizeTextures = true ∧
     portResizeFails 1 [1, 2, 3] = .ok [1, 2, 3, 1] ∧
     portResizeFails 2 [1, 2, 3, 1] = .fail none ∧
     portResizeFails 3 [1, 2, 3, 1] = .ok [1, 2, 3, 1, 3] ∧
     PathsSeparated "m.obj") ∧
    ((optimizeModel rtW portResizeFails stW "m.obj" optsNone).2 =
      ⟨[⟨"optimize", true⟩, ⟨"resize", false⟩, ⟨"webp", true⟩], true⟩ ∧
     (optimizeModel rtW portResizeFails stW "m.obj" optsNone).1.fsys "m.obj"
       = some [1, 2, 3, 1, 3] ∧
     (optimizeModel rtW portResizeFails stW "m.obj" optsNone).1.fsys
       (derivedOutputPath "m.obj") = none ∧
     (optimizeModel rtW portResizeFails stW "m.obj" optsNone).1.fsys
       (derivedTempPath "m.obj") = none ∧
     (optimizeModel rtW portResizeFails stW "m.obj" optsNone).1.fsys
       (derivedTemp2Path "m.obj") = none) :=
  ⟨⟨by decide, by decide, by decide, by decide, by decide, by decide, by decide⟩,
   optimize_optional_resize_failure_recovered rtW portResizeFails stW "m.obj"
     optsNone [1, 2, 3] [1, 2, 3, 1] [1, 2, 3, 1, 3] none (by decide) (by decide)
     (by decide) (by decide) (by decide) (by decide) (by decide)⟩

/-- C3: across two successive committed runs with `backupOriginal` and no
pre-existing backup, the first run copies the pre-pipeline original bytes
to the backup path and the second run never overwrites them. -/
theorem optimize_backup_idempotent (rt rt2 : Rt) (port port2 : Port) (s0 : St)
    (p : String) (o o2 : Opts) (b0 : Bytes)
    (hb0 : s0.fsys p = some b0)
    (hbO : (resolveOpts o).backupOriginal = true)
    (hbp0 : s0.fsys (derivedBackupPath p) = none)
    (hpaths : PathsSeparated p)
    (hc1 : (optimizeModel rt port s0 p o).2.committed = true)
    (hc2 : (optimizeModel rt2 port2 (optimizeModel rt port s0 p o).1 p o2).2.committed
      = true) :
    ((optimizeModel rt2 port2 (optimizeModel rt port s0 p o).1 p o2).1).fsys
      (derivedBackupPath p) = some b0 := by
  rcases optimize_committed_writes_backup rt port s0 p o hb0 hbO hbp0 hpaths with h1 | h1
  · rw [h1] at hc1
    cases hc1
  · exact optimize_preserves_backup rt2 port2 _ p o2 h1 hpaths

/-- Witness for C3 at a concrete asset run twice with an all-success
port stub. -/
theorem optimize_backup_idempotent_witness :
    (stW.fsys "m.obj" = some [1, 2, 3] ∧
     (resolveOpts optsNone).backupOriginal = true ∧
     stW.fsys (derivedBackupPath "m.obj") = none ∧
     PathsSeparated "m.obj" ∧
     (optimizeModel rtW portAllOk stW "m.obj" optsNone).2.committed = true ∧
     (optimizeModel rtW portAllOk
       (optimizeModel rtW portAllOk stW "m.obj" optsNone).1 "m.obj"
       optsNone).2.committed = true) ∧
    ((optimizeModel rtW portAllOk
       (optimizeModel rtW portAllOk stW "m.obj" optsNone).1 "m.obj"
       optsNone).1).fsys (derivedBackupPath "m.obj") = some [1, 2, 3] :=
  ⟨⟨by decide, by decide, by decide, by decide, by decide, by decide⟩,
   optimize_backup_idempotent rtW rtW portAllOk portAllOk stW "m.obj" optsNone
     optsNone [1, 2, 3] (by decide) (by decide) (by decide) (by decide)
     (by decide) (by decide)⟩

/-- Fuel sufficiency for the chunk scan: since every iteration advances
the cursor by `8 + chunkLength ≥ 8`, any fuel covering one eighth of the
remaining bytes (plus the final exit check) makes the fuel-bounded scan
agree with the unbounded loop. -/
theorem scanFuel_eq_scan (jc : Bytes → JsonVerdict) (c : Bytes) :
    ∀ (fuel offset : Nat) (hasJSON : Bool), c.length ≤ offset + 8 * fuel →
      scanChunksFuel jc c (fuel + 1) offset hasJSON
        = some (scanChunks jc c offset hasJSON) := by
  intro fuel
  induction fuel with
  | zero =>
    intro offset hasJSON h
    have h0 : ¬ offset < c.length := by omega
    unfold scanChunksFuel scanChunks
    simp [h0]
  | succ n ih =>
    intro offset hasJSON h
    unfold scanChunksFuel scanChunks
    by_cases h0 : offset < c.length
    · simp only [h0, if_true, dif_pos h0]
      by_cases h8 : offset + 8 > c.length
      · simp [h8]
      · simp only [h8, if_false]
        by_cases htag : byteSlice c (offset + 4) (offset + 8) = jsonTag
        · simp only [htag, if_true]
          cases hjc : jc (byteSlice c (offset + 8) (offset + 8 + u32le c offset)) with
          | ok => exact ih (offset + 8 + u32le c offset) true (by omega)
          | parseErr m => rfl
          | noVersion => rfl
          | badVersion v => rfl
        · simp only [htag, if_false]
          exact ih (offset + 8 + u32le c offset) hasJSON (by omega)
    · simp [h0]

/-- C10: the GLB chunk scan terminates on every finite buffer — because
each iteration advances the cursor by `8 + L ≥ 8`, a fuel budget of
`fuel + 1` with `c.length ≤ offset + 8 * fuel` already reaches the loop
exit, and the fuel-bounded scan returns the unbounded scan's verdict
rather than running out. -/
theorem scanChunks_terminates_with_linear_fuel (jc : Bytes → JsonVerdict)
    (c : Bytes) (fuel offset : Nat) (hasJSON : Bool)
    (h : c.length ≤ offset + 8 * fuel) :
    scanChunksFuel jc c (fuel + 1) offset hasJSON
      = some (scanChunks jc c offset hasJSON) :=
  scanFuel_eq_scan jc c fuel offset hasJSON h

/-- Witness for C10 on a concrete twelve-byte header-only buffer. -/
theorem scanChunks_terminates_with_linear_fuel_witness :
    ((12 : Nat) ≤ 12 + 8 * 2) ∧
    scanChunksFuel (fun _ => JsonVerdict.ok)
        [103, 108, 84, 70, 2, 0, 0, 0, 12, 0, 0, 0] (2 + 1) 12 false
      = some (scanChunks (fun _ => JsonVerdict.ok)
        [103, 108, 84, 70, 2, 0, 0, 0, 12, 0, 0, 0] 12 false) :=
  ⟨by decide, scanChunks_terminates_with_linear_fuel (fun _ => JsonVerdict.ok)
    [103, 108, 84, 70, 2, 0, 0, 0, 12, 0, 0, 0] 2 12 false (by decide)⟩

/-- C4 (amended): the chunk scan performs no payload-truncation check.
When a chunk header declares a length that exceeds the bytes remaining
after the 8-byte header and its tag is not `JSON`, the cursor simply
advances past the end of the buffer and the scan stops, its verdict
determined solely by whether a passing `JSON` chunk was seen earlier —
no truncated-payload `Invalid` is produced. -/
theorem scanChunks_overrun_no_truncation_error (jc : Bytes → JsonVerdict)
    (c : Bytes) (offset : Nat) (hasJSON : Bool)
    (h0 : offset < c.length) (h8 : offset + 8 ≤ c.length)
    (hov : c.length < offset + 8 + u32le c offset)
    (htag : byteSlice c (offset + 4) (offset + 8) ≠ jsonTag) :
    scanChunks jc c offset hasJSON =
      (if hasJSON then .valid else .invalid "GLB sans chunk JSON") := by
  have h8n : ¬ offset + 8 > c.length := by omega
  unfold scanChunks
  simp only [dif_pos h0, h8n, if_false, htag]
  have hend : ¬ offset + 8 + u32le c offset < c.length := by omega
  unfold scanChunks
  simp [hend]

/-- Witness for C4's amended statement: a 20-byte file whose single
chunk declares 100 payload bytes with none remaining. -/
theorem scanChunks_overrun_no_truncation_error_witness :
    ((12 : Nat) < 20 ∧ 12 + 8 ≤ 20 ∧
     (20 : Nat) < 12 + 8 + u32le [103, 108, 84, 70, 2, 0, 0, 0, 20, 0, 0, 0,
       100, 0, 0, 0, 65, 66, 67, 68] 12 ∧
     byteSlice [103, 108, 84, 70, 2, 0, 0, 0, 20, 0, 0, 0,
       100, 0, 0, 0, 65, 66, 67, 68] (12 + 4) (12 + 8) ≠ jsonTag) ∧
    scanChunks (fun _ => JsonVerdict.ok)
        [103, 108, 84, 70, 2, 0, 0, 0, 20, 0, 0, 0, 100, 0, 0, 0, 65, 66, 67, 68]
        12 false
      = (if false then .valid else .invalid "GLB sans chunk JSON") :=
  ⟨⟨by decide, by decide, by decide, by decide⟩,
   scanChunks_overrun_no_truncation_error (fun _ => JsonVerdict.ok)
     [103, 108, 84, 70, 2, 0, 0, 0, 20, 0, 0, 0, 100, 0, 0, 0, 65, 66, 67, 68]
     12 false (by decide) (by decide) (by decide) (by decide)⟩

/-- Little-endian 32-bit encoding of a number, for building GLB headers. -/
def u32bytes (n : Nat) : Bytes :=
  [n % 256, n / 256 % 256, n / 65536 % 256, n / 16777216 % 256]

/-- The ASCII bytes of a minimal glTF JSON document with
`asset.version = "2.0"`. -/
def jsonPayloadC4 : Bytes :=
  [123, 34, 97, 115, 115, 101, 116, 34, 58, 123, 34, 118, 101, 114, 115, 105,
   111, 110, 34, 58, 34, 50, 46, 48, 34, 125, 125]

/-- A GLB file whose header checks pass, whose first chunk is a valid
`JSON` chunk, and whose second chunk's header declares one payload byte
with zero bytes remaining in the file: a truncated chunk payload. -/
def glbC4 : Bytes :=
  glbMagic ++ u32bytes 2 ++ u32bytes 55
    ++ u32bytes 27 ++ jsonTag ++ jsonPayloadC4
    ++ u32bytes 1 ++ binTag

/-- A JSON-chunk checker that accepts exactly the payload above — the
behaviour of `JSON.parse` plus the version check on that document. -/
def jcC4 : Bytes → JsonVerdict := fun b =>
  if b = jsonPayloadC4 then .ok else .parseErr "unexpected"

/-- Runtime built from that checker. -/
def rtC4 : Rt := ⟨jcC4, fun _ => .parseErr "unexpected"⟩

/-- File system holding the truncated GLB. -/
def fsC4 : FS := fun q => if q = "t.glb" then some glbC4 else none

/-- C4 (counterexample): the second chunk of `glbC4` declares more
payload bytes than remain after its header, yet the validator returns
`Valid` — it never reports a truncated chunk payload. -/
theorem scan_truncated_payload_accepted_cex :
    glbC4.length < 47 + 8 + u32le glbC4 47 ∧
    47 + 8 ≤ glbC4.length ∧
    validateGltfModel rtC4 fsC4 "t.glb" = .valid := by
  refine ⟨by decide, by decide, ?_⟩
  have hfuel : scanChunksFuel jcC4 glbC4 (glbC4.length + 1) 12 false
      = some .valid := by decide
  have h := scanFuel_eq_scan jcC4 glbC4 glbC4.length 12 false (by decide)
  rw [hfuel] at h
  have hscan : scanChunks jcC4 glbC4 12 false = .valid := (Option.some.inj h).symm
  have hval : validateGltfModel rtC4 fsC4 "t.glb" = scanChunks jcC4 glbC4 12 false := rfl
  rw [hval, hscan]

/-- C5 (amended): for a `.glb` file of at least 12 bytes whose first four
bytes differ from the `glTF` magic, validation fails with the
magic-number reason, whatever the remaining content. -/
theorem validate_glb_bad_magic_reason (rt : Rt) (fsys : FS) (p : String)
    (c : Bytes)
    (h1 : strEndsWith p ".gltf" = false)
    (h2 : strEndsWith p ".glb" = true)
    (hc : fsys p = some c) (hlen : 12 ≤ c.length)
    (hmagic : byteSlice c 0 4 ≠ glbMagic) :
    validateGltfModel rt fsys p = .invalid "Magic number GLB invalide" := by
  have hne : ¬ c.length = 0 := by omega
  have hlt : ¬ c.length < 12 := by omega
  unfold validateGltfModel
  rw [hc]
  simp [hne, h1, h2, hlt, hmagic]

/-- Witness for C5's amended statement: a 12-byte file with a bad magic. -/
theorem validate_glb_bad_magic_reason_witness :
    (strEndsWith "x.glb" ".gltf" = false ∧
     strEndsWith "x.glb" ".glb" = true ∧
     (fun q => if q = "x.glb" then
        some [0, 0, 0, 0, 2, 0, 0, 0, 12, 0, 0, 0] else none : FS) "x.glb"
       = some [0, 0, 0, 0, 2, 0, 0, 0, 12, 0, 0, 0] ∧
     (12 : Nat) ≤ ([0, 0, 0, 0, 2, 0, 0, 0, 12, 0, 0, 0] : Bytes).length ∧
     byteSlice [0, 0, 0, 0, 2, 0, 0, 0, 12, 0, 0, 0] 0 4 ≠ glbMagic) ∧
    validateGltfModel rtW
      (fun q => if q = "x.glb" then
        some [0, 0, 0, 0, 2, 0, 0, 0, 12, 0, 0, 0] else none) "x.glb"
      = .invalid "Magic number GLB invalide" :=
  ⟨⟨by decide, by decide, by decide, by decide, by decide⟩,
   validate_glb_bad_magic_reason rtW _ "x.glb"
     [0, 0, 0, 0, 2, 0, 0, 0, 12, 0, 0, 0]
     (by decide) (by decide) (by decide) (by decide) (by decide)⟩

/-- File system holding a four-byte `.glb` whose bytes are not `glTF`. -/
def fsC5 : FS := fun q => if q = "x.glb" then some [88, 88, 88, 88] else none

/-- C5 (counterexample): on a `.glb` file shorter than 12 bytes the size
check fires first, so even though bytes [0,4) differ from the magic, the
reported reason is the too-small one, not the magic-number one. -/
theorem validate_bad_magic_short_file_cex :
    byteSlice [88, 88, 88, 88] 0 4 ≠ glbMagic ∧
    validateGltfModel rtW fsC5 "x.glb" = .invalid "Fichier GLB trop petit" ∧
    validateGltfModel rtW fsC5 "x.glb" ≠ .invalid "Magic number GLB invalide" := by
  decide

/-- C8: for a non-empty file whose name ends in neither `.gltf` nor
`.glb`, validation returns `Valid` whatever the content is — neither
container branch runs, so the content is never inspected. -/
theorem validate_other_extension_valid (rt : Rt) (fsys : FS) (p : String)
    (c : Bytes)
    (h1 : strEndsWith p ".gltf" = false)
    (h2 : strEndsWith p ".glb" = false)
    (hc : fsys p = some c) (hne : c ≠ []) :
    validateGltfModel rt fsys p = .valid := by
  unfold validateGltfModel
  rw [hc]
  simp [h1, h2, List.length_eq_zero, hne]

/-- Witness for C8 on a `.bin` file. -/
theorem validate_other_extension_valid_witness :
    (strEndsWith "scene.bin" ".gltf" = false ∧
     strEndsWith "scene.bin" ".glb" = false ∧
     (fun q => if q = "scene.bin" then some [7] else none : FS) "scene.bin"
       = some [7] ∧
     ([7] : Bytes) ≠ []) ∧
    validateGltfModel rtW (fun q => if q = "scene.bin" then some [7] else none)
      "scene.bin" = .valid :=
  ⟨⟨by decide, by decide, by decide, by decide⟩,
   validate_other_extension_valid rtW _ "scene.bin" [7]
     (by decide) (by decide) (by decide) (by decide)⟩

/-- C9: for a `.gltf` asset that parses with version `2.0` and declares
two or more buffers, validity only requires the first buffer's check to
pass (no URI, an empty URI, or a URI resolving to an existing file); no
hypothesis about any later buffer entry is needed, because the source
only ever inspects `buffers[0]`. -/
theorem validate_gltf_checks_only_first_buffer (rt : Rt) (fsys : FS)
    (p : String) (c : Bytes) (g : GltfDoc) (b0 b1 : GltfBuffer)
    (rest : List GltfBuffer)
    (h1 : strEndsWith p ".gltf" = true)
    (h2 : strEndsWith p ".glb" = false)
    (hc : fsys p = some c) (hne : c ≠ [])
    (hdec : rt.dec c = .ok g)
    (hv : g.assetVersion = some "2.0")
    (hbuf : g.buffers = b0 :: b1 :: rest)
    (hb0 : b0.uri = none ∨ b0.uri = some "" ∨
      ∃ u, b0.uri = some u ∧ (fsys (jsJoin (jsDirname p) u)).isSome = true) :
    validateGltfModel rt fsys p = .valid := by
  unfold validateGltfModel
  rw [hc]
  simp only [h1, h2, hdec, hv, hbuf]
  rcases hb0 with h | h | ⟨u, hu, hex⟩
  · simp [h, List.length_eq_zero, hne]
  · simp [h, List.length_eq_zero, hne]
  · simp [hu, hex, List.length_eq_zero, hne]

/-- A parsed document declaring two buffers: the first URI exists on
disk, the second does not. -/
def gdocW : GltfDoc := ⟨some "2.0", [⟨some "scene.bin"⟩, ⟨some "missing.bin"⟩]⟩

/-- Runtime whose `.gltf` decoder returns that document for the witness
file's bytes. -/
def rtC9 : Rt :=
  ⟨fun _ => .ok, fun b => if b = [10] then .ok gdocW else .parseErr "unexpected"⟩

/-- File system for the C9 witness: the asset and the first buffer's
file exist, the second buffer's file does not. -/
def fsC9 : FS := fun q =>
  if q = "models/a.gltf" then some [10]
  else if q = "models/scene.bin" then some [1] else none

/-- Witness for C9: the second buffer's URI resolves to a missing file,
yet validation succeeds because only `buffers[0]` is checked. -/
theorem validate_gltf_checks_only_first_buffer_witness :
    (strEndsWith "models/a.gltf" ".gltf" = true ∧
     strEndsWith "models/a.gltf" ".glb" = false ∧
     fsC9 "models/a.gltf" = some [10] ∧
     ([10] : Bytes) ≠ [] ∧
     rtC9.dec [10] = .ok gdocW ∧
     gdocW.assetVersion = some "2.0" ∧
     gdocW.buffers = ⟨some "scene.bin"⟩ :: ⟨some "missing.bin"⟩ :: [] ∧
     (GltfBuffer.mk (some "scene.bin")).uri = some "scene.bin" ∧
     (fsC9 (jsJoin (jsDirname "models/a.gltf") "scene.bin")).isSome = true ∧
     fsC9 (jsJoin (jsDirname "models/a.gltf") "missing.bin") = none) ∧
    validateGltfModel rtC9 fsC9 "models/a.gltf" = .valid :=
  ⟨⟨by decide, by decide, by decide, by decide, rfl, rfl, rfl, rfl,
    by decide, by decide⟩,
   validate_gltf_checks_only_first_buffer rtC9 fsC9 "models/a.gltf" [10]
     gdocW ⟨some "scene.bin"⟩ ⟨some "missing.bin"⟩ []
     (by decide) (by decide) (by decide) (by decide) rfl rfl rfl
     (Or.inr (Or.inr ⟨"scene.bin", rfl, by decide⟩))⟩

/-- Completion of a partial options value by the module-level constants,
exactly what the destructuring defaults of lines 324-329 compute. -/
def fillOpts (o : Opts) : Opts :=
  ⟨some (o.compressDraco.getD COMPRESS_DRACO),
   some (o.resizeTextures.getD RESIZE_TEXTURES),
   some (o.maxTextureSize.getD MAX_TEXTURE_SIZE),
   some (o.backupOriginal.getD true)⟩

/-- C7 (amended): the pipeline's behaviour on a partial options value is
exactly its behaviour on the options completed from the module-level
constants `COMPRESS_DRACO`, `RESIZE_TEXTURES`, `MAX_TEXTURE_SIZE` (and
the literal `true` for `backupOriginal`): omitted fields are filled from
module state, not left to the caller. -/
theorem optimize_partial_options_filled_from_module_defaults (rt : Rt)
    (port : Port) (s0 : St) (p : String) (o : Opts) :
    optimizeModel rt port s0 p o = optimizeModel rt port s0 p (fillOpts o) := by
  have h : resolveOpts (fillOpts o) = resolveOpts o := by
    simp [resolveOpts, fillOpts]
  unfold optimizeModel
  rw [h]

/-- C7 (counterexample): with every option omitted by the caller, the
invocations the pipeline actually performs carry the module-level
constants — the caller-supplied configuration is not used exactly as
supplied, since it supplied nothing. -/
theorem optimize_module_defaults_used_cex :
    optsNone.compressDraco = none ∧
    optsNone.maxTextureSize = none ∧
    Ev.invoke 1 "m.obj" (derivedOutputPath "m.obj")
        (StageParams.general COMPRESS_DRACO)
      ∈ (optimizeModel rtW portAllOk stW "m.obj" optsNone).1.trace ∧
    Ev.invoke 2 (derivedOutputPath "m.obj") (derivedTempPath "m.obj")
        (StageParams.resize MAX_TEXTURE_SIZE)
      ∈ (optimizeModel rtW portAllOk stW "m.obj" optsNone).1.trace := by
  decide

/-- Membership in a `takeWhile` gives membership in the underlying list. -/
theorem mem_of_takeWhile {f : Ev → Bool} :
    ∀ {l : List Ev} {e : Ev}, e ∈ l.takeWhile f → e ∈ l := by
  intro l
  induction l with
  | nil =>
    intro e h
    simpa using h
  | cons a t ih =>
    intro e h
    rw [List.takeWhile_cons] at h
    by_cases hf : f a = true
    · rw [if_pos hf] at h
      rcases List.mem_cons.mp h with h | h
      · exact h ▸ List.mem_cons_self a t
      · exact List.mem_cons_of_mem a (ih h)
    · rw [if_neg hf] at h
      simp at h

/-- Discriminator for events other than a resize-stage invocation. -/
def notInvokeResize : Ev → Bool
  | .invoke 2 _ _ _ => false
  | _ => true

/-- File system for the C6 counterexample: the asset plus a stale
leftover file at the resize stage's derived temp path. -/
def fsC6 : FS := fun q =>
  if q = "m.obj" then some [1, 2, 3]
  else if q = "m-optimized-temp.obj" then some [9, 9] else none

/-- Initial state holding the stale temp file. -/
def stC6 : St := ⟨fsC6, []⟩

/-- C6 (counterexample): with a stale file present at the resize stage's
derived temp path, the orchestrator invokes the resize stage without any
prior removal — the only event before the resize invocation is the
mandatory stage's invocation, so no stale-temp cleanup happens before the
stage runs. -/
theorem optimize_no_stale_temp_removal_cex :
    fsC6 (derivedTempPath "m.obj") = some [9, 9] ∧
    (Ev.invoke 2 (derivedOutputPath "m.obj") (derivedTempPath "m.obj")
        (StageParams.resize MAX_TEXTURE_SIZE)
      ∈ (optimizeModel rtW portAllOk stC6 "m.obj" optsNone).1.trace) ∧
    ((optimizeModel rtW portAllOk stC6 "m.obj" optsNone).1.trace.takeWhile
        notInvokeResize)
      = [Ev.invoke 1 "m.obj" (derivedOutputPath "m.obj")
          (StageParams.general COMPRESS_DRACO)] := by
  decide

/-- C6 (amended): the orchestrator performs no stale-temp removal before
a stage: in any run starting from an empty trace, no removal of the
resize stage's derived temp path is ever recorded before the resize
stage's invocation event — whatever sits at that path when the stage
starts was left there untouched (stage temp paths are only removed by a
stage's own failure handler, after its invocation). -/
theorem optimize_no_temp_unlink_before_resize_invoke (rt : Rt) (port : Port)
    (s0 : St) (p : String) (o : Opts)
    (htr : s0.trace = [])
    (hpaths : PathsSeparated p) :
    ∀ e ∈ ((optimizeModel rt port s0 p o).1.trace.takeWhile notInvokeResize),
      e ≠ Ev.unlink (derivedTempPath p) := by
  obtain ⟨hA1, hA2, hA3, hA4, hA5, hA6, hA7, hA8, hA9, hA10,
    hA11, hA12, hA13, hA14, hA15⟩ := hpaths
  have hu_op : Ev.unlink (derivedOutputPath p) ≠ Ev.unlink (derivedTempPath p) := by
    simp only [ne_eq, Ev.unlink.injEq]
    exact fun h => hA6 h.symm
  have hu_t2 : Ev.unlink (derivedTemp2Path p) ≠ Ev.unlink (derivedTempPath p) := by
    simp only [ne_eq, Ev.unlink.injEq]
    exact hA10
  have hu_p : Ev.unlink p ≠ Ev.unlink (derivedTempPath p) := by
    simp only [ne_eq, Ev.unlink.injEq]
    exact fun h => hA2 h.symm
  unfold optimizeModel
  try dsimp only
  split
  · intro e hm
    have hmem := mem_of_takeWhile hm
    rw [htr] at hmem
    simp at hmem
  · split
    next s1 hi =>
      have ht1 := invokePort_trace port s0 1 p (derivedOutputPath p)
        (StageParams.general (resolveOpts o).compressDraco)
      rw [hi] at ht1
      simp only [exSt] at ht1
      try dsimp only
      obtain ⟨l, hl, he⟩ := removeIfExists_trace s1 (derivedOutputPath p)
      intro e hm
      have hmem := mem_of_takeWhile hm
      rw [hl, ht1, htr] at hmem
      simp only [List.nil_append, List.mem_append, List.mem_singleton] at hmem
      rcases hmem with hmem | hmem
      · rw [hmem]
        simp
      · rw [he e hmem]
        exact hu_op
    next s1 hi =>
      have ht1 := invokePort_trace port s0 1 p (derivedOutputPath p)
        (StageParams.general (resolveOpts o).compressDraco)
      rw [hi] at ht1
      simp only [exSt] at ht1
      by_cases hrz : (resolveOpts o).resizeTextures = true
      · simp only [hrz, if_true]
        try dsimp only
        obtain ⟨l2, hl2, he2⟩ := stageTryRun_trace port 2
          (StageParams.resize (resolveOpts o).maxTextureSize) s1
          (derivedOutputPath p) (derivedTempPath p)
        obtain ⟨l3, hl3, he3⟩ := stageTryRun_trace port 3 StageParams.webp
          (stageTryRun port 2 (StageParams.resize (resolveOpts o).maxTextureSize) s1
            (derivedOutputPath p) (derivedTempPath p)).1
          (derivedOutputPath p) (derivedTemp2Path p)
        have hpre : ∀ (tail : List Ev) (e : Ev),
            e ∈ (s1.trace ++ Ev.invoke 2 (derivedOutputPath p) (derivedTempPath p)
                (StageParams.resize (resolveOpts o).maxTextureSize) :: tail).takeWhile
              notInvokeResize →
            e ≠ Ev.unlink (derivedTempPath p) := by
          intro tail e hm
          rw [ht1, htr] at hm
          simp only [List.nil_append, List.cons_append, List.singleton_append] at hm
          rw [List.takeWhile_cons] at hm
          simp only [show notInvokeResize (Ev.invoke 1 p (derivedOutputPath p)
            (StageParams.general (resolveOpts o).compressDraco)) = true from rfl,
            if_true] at hm
          rw [List.takeWhile_cons] at hm
          simp only [show notInvokeResize (Ev.invoke 2 (derivedOutputPath p)
            (derivedTempPath p)
            (StageParams.resize (resolveOpts o).maxTextureSize)) = false from rfl,
            Bool.false_eq_true, if_false] at hm
          simp only [List.mem_singleton] at hm
          rw [hm]
          simp
        split
        next s4 hc =>
          obtain ⟨l4, hl4, he4⟩ := commitRun_trace (resolveOpts o) _ p
            (derivedOutputPath p) (derivedBackupPath p) (derivedBinPath p)
            (derivedBinBackupPath p) (derivedExt p)
          rw [hc] at hl4
          simp only [exSt] at hl4
          try dsimp only
          intro e hm
          rw [hl4, hl3, hl2] at hm
          rw [List.append_assoc, List.append_assoc] at hm
          exact hpre _ e (by simpa using hm)
        next s4 hc =>
          obtain ⟨l4, hl4, he4⟩ := commitRun_trace (resolveOpts o) _ p
            (derivedOutputPath p) (derivedBackupPath p) (derivedBinPath p)
            (derivedBinBackupPath p) (derivedExt p)
          rw [hc] at hl4
          simp only [exSt] at hl4
          try dsimp only
          obtain ⟨l5, hl5, he5⟩ := removeIfExists_trace s4 (derivedOutputPath p)
          intro e hm
          rw [hl5, hl4, hl3, hl2] at hm
          rw [List.append_assoc, List.append_assoc, List.append_assoc] at hm
          exact hpre _ e (by simpa using hm)
      · simp only [Bool.not_eq_true] at hrz
        simp only [hrz, Bool.false_eq_true, if_false]
        try dsimp only
        obtain ⟨l3, hl3, he3⟩ := stageTryRun_trace port 3 StageParams.webp s1
          (derivedOutputPath p) (derivedTemp2Path p)
        have hl3events : ∀ e ∈ l3, e ≠ Ev.unlink (derivedTempPath p) := by
          intro e hm
          rcases he3 e hm with h | h | h
          · rw [h]; exact hu_op
          · rw [h]; simp
          · rw [h]; exact hu_t2
        split
        next s4 hc =>
          obtain ⟨l4, hl4, he4⟩ := commitRun_trace (resolveOpts o) _ p
            (derivedOutputPath p) (derivedBackupPath p) (derivedBinPath p)
            (derivedBinBackupPath p) (derivedExt p)
          rw [hc] at hl4
          simp only [exSt] at hl4
          try dsimp only
          intro e hm
          have hmem := mem_of_takeWhile hm
          rw [hl4, hl3, ht1, htr] at hmem
          simp only [List.nil_append, List.cons_append, List.singleton_append,
            List.mem_append, List.mem_cons, or_assoc] at hmem
          rcases hmem with h | h | h | h
          · rw [h]; simp
          · rw [h]; simp
          · exact hl3events e h
          · rcases he4 e h with h4 | h4 | h4 | h4
            · rw [h4]; simp
            · rw [h4]; exact hu_p
            · rw [h4]; simp
            · rw [h4]; simp
        next s4 hc =>
          obtain ⟨l4, hl4, he4⟩ := commitRun_trace (resolveOpts o) _ p
            (derivedOutputPath p) (derivedBackupPath p) (derivedBinPath p)
            (derivedBinBackupPath p) (derivedExt p)
          rw [hc] at hl4
          simp only [exSt] at hl4
          try dsimp only
          obtain ⟨l5, hl5, he5⟩ := removeIfExists_trace s4 (derivedOutputPath p)
          intro e hm
          have hmem := mem_of_takeWhile hm
          rw [hl5, hl4, hl3, ht1, htr] at hmem
          simp only [List.nil_append, List.cons_append, List.singleton_append,
            List.mem_append, List.mem_cons, or_assoc] at hmem
          rcases hmem with h | h | h | h | h
          · rw [h]; simp
          · rw [h]; simp
          · exact hl3events e h
          · rcases he4 e h with h4 | h4 | h4 | h4
            · rw [h4]; simp
            · rw [h4]; exact hu_p
            · rw [h4]; simp
            · rw [h4]; simp
          · rw [he5 e h]; exact hu_op

/-- Witness for C6's amended statement on the concrete stale-temp state:
no removal of the resize temp path is recorded before the resize stage's
invocation. -/
theorem optimize_no_temp_unlink_before_resize_invoke_witness :
    (stC6.trace = [] ∧ PathsSeparated "m.obj") ∧
    Ev.unlink (derivedTempPath "m.obj")
      ∉ ((optimizeModel rtW portAllOk stC6 "m.obj" optsNone).1.trace.takeWhile
        notInvokeResize) :=
  ⟨⟨rfl, by decide⟩,
   fun hmem =>
     optimize_no_temp_unlink_before_resize_invoke rtW portAllOk stC6 "m.obj"
       optsNone rfl (by decide) (Ev.unlink (derivedTempPath "m.obj")) hmem rfl⟩
